import Mathlib

/-!
# Verification of the FuzzManager symptom matcher (`FTB/Signatures/Symptom.py`)

A shallow embedding of the crash-signature symptom matcher: the JSON value
accessors, the `StringMatch` and `NumberMatch` predicates, the seven symptom
kinds with their constructors and `matches` operations, and the
`StackFramesSymptom` sequence matcher `_match` together with the bounded
generalization search `_diff` and `diff`.

`Symptom.py` is embedded from the source.  `FTB/Signatures/Matchers.py` and
`FTB/Signatures/JSONHelper.py` are not part of the source tree we were given,
so `StringMatch`, `NumberMatch` and the JSON accessors are modelled from the
specification; the PCRE engine is kept abstract as a boolean-valued parameter.
-/

set_option maxHeartbeats 1000000

/-- A decoded JSON value (the shapes the matcher cares about). -/
inductive JVal where
  | str (s : String)
  | num (n : Int)
  | arr (xs : List JVal)
  | obj (kvs : List (String × JVal))
  | jbool (b : Bool)
  | jnull

/-- Key lookup in a decoded JSON object (first binding wins, as in a dict). -/
def jlookup (kvs : List (String × JVal)) (k : String) : Option JVal :=
  match kvs with
  | [] => none
  | (k', v) :: rest => if k' = k then some v else jlookup rest k

/-- `subList pat hay`: `pat` occurs as a contiguous sublist of `hay`
(the semantics of the Python substring test `pat in hay`). -/
def subList (pat : List Char) : List Char → Bool
  | [] => pat.isEmpty
  | c :: rest => pat.isPrefixOf (c :: rest) || subList pat rest

/-- Python substring containment `pat in hay` on strings. -/
def strContains (hay pat : String) : Bool :=
  subList pat.toList hay.toList

/-- Python `str.lower()` (ASCII case folding), written as a character-list
map so that it evaluates by computation. -/
def pyLower (s : String) : String :=
  String.mk (s.data.map Char.toLower)

/-- Modelled from the spec: `FTB.Signatures.Matchers.StringMatch`
(`Matchers.py` is not in the source tree).  `rep` is the textual repr
(the bare pattern, used for wildcard detection by the stack-frames code),
`fn` is the compiled predicate `matches`. -/
structure StringMatch where
  rep : String
  fn : String → Bool

/-- Modelled from the spec: constructing a `StringMatch` from a bare JSON
string gives a case-sensitive literal (substring) matcher. -/
def StringMatch.ofString (s : String) : StringMatch :=
  ⟨s, fun t => strContains t s⟩

/-- Modelled from the spec: case-insensitive literal matcher
(both sides folded to lower case). -/
def StringMatch.ofStringCI (s : String) : StringMatch :=
  ⟨s, fun t => strContains (pyLower t) (pyLower s)⟩

/-- Modelled from the spec: `StringMatch` construction from a decoded JSON
value.  A bare string is a literal matcher; a mapping carries required
`value`, optional `matchType` (`contains` default, or `pcre`) and optional
`flags` (drawn from `caseInsensitive`).  The PCRE engine is abstract:
`pcre ci pat s` decides whether the regex `pat` (case-insensitive iff `ci`)
matches somewhere in `s`. -/
def StringMatch.fromJVal (pcre : Bool → String → String → Bool) :
    JVal → Except String StringMatch
  | .str s => .ok (StringMatch.ofString s)
  | .obj kvs =>
    match jlookup kvs "value" with
    | some (.str v) =>
      let ci : Bool :=
        match jlookup kvs "flags" with
        | some (.arr fs) => fs.any (fun f =>
            match f with
            | .str fl => fl == "caseInsensitive"
            | _ => false)
        | _ => false
      (match jlookup kvs "matchType" with
       | none => .ok (if ci then StringMatch.ofStringCI v else StringMatch.ofString v)
       | some (.str "contains") =>
         .ok (if ci then StringMatch.ofStringCI v else StringMatch.ofString v)
       | some (.str "pcre") => .ok ⟨v, fun s => pcre ci v s⟩
       | some _ => .error "BadType: matchType")
    | some _ => .error "BadType: value"
    | none => .error "MissingField: value"
  | _ => .error "BadType: StringMatch"

/-- Modelled from the spec: `FTB.Signatures.Matchers.NumberMatch`,
a predicate over integers. -/
inductive NumberMatch where
  | exact (n : Int)
  | ge (n : Int)
  | le (n : Int)
  | between (m n : Int)

/-- `NumberMatch.matches`: absent values never match; otherwise evaluate
the predicate. -/
def NumberMatch.matches : NumberMatch → Option Int → Bool
  | _, none => false
  | .exact n, some x => x == n
  | .ge n, some x => n ≤ x
  | .le n, some x => x ≤ n
  | .between m n, some x => m ≤ x && x ≤ n

/-- Modelled from the spec: parse the `NumberMatch` string grammar:
`"M..N"`, `">= N"`, `"<= N"`, or a signed integer. -/
def NumberMatch.ofString (s : String) : Except String NumberMatch :=
  let t := s.trim
  match t.splitOn ".." with
  | [a, b] =>
    match a.trim.toInt?, b.trim.toInt? with
    | some m, some n => if m ≤ n then .ok (.between m n) else .error "BadNumberSpec"
    | _, _ => .error "BadNumberSpec"
  | _ =>
    if t.startsWith ">=" then
      match (t.drop 2).trim.toInt? with
      | some n => .ok (.ge n)
      | none => .error "BadNumberSpec"
    else if t.startsWith "<=" then
      match (t.drop 2).trim.toInt? with
      | some n => .ok (.le n)
      | none => .error "BadNumberSpec"
    else
      match t.toInt? with
      | some n => .ok (.exact n)
      | none => .error "BadNumberSpec"

/-- Modelled from the spec: `NumberMatch` construction from a JSON value
(integer, or string in the number grammar). -/
def NumberMatch.fromJVal : JVal → Except String NumberMatch
  | .num n => .ok (.exact n)
  | .str s => NumberMatch.ofString s
  | _ => .error "BadNumberSpec"

namespace JSONHelper

/-- Modelled from the spec: `getStringChecked(obj, k, required)`.
Fails with `BadType` when present and not a string, with `MissingField`
when required and absent; returns `none` when optional and absent. -/
def getStringChecked (kvs : List (String × JVal)) (k : String) (required : Bool) :
    Except String (Option String) :=
  match jlookup kvs k with
  | none => if required then .error ("MissingField: " ++ k) else .ok none
  | some (.str s) => .ok (some s)
  | some _ => .error ("BadType: " ++ k)

/-- Modelled from the spec: `getArrayChecked`, analogous for array values. -/
def getArrayChecked (kvs : List (String × JVal)) (k : String) (required : Bool) :
    Except String (Option (List JVal)) :=
  match jlookup kvs k with
  | none => if required then .error ("MissingField: " ++ k) else .ok none
  | some (.arr xs) => .ok (some xs)
  | some _ => .error ("BadType: " ++ k)

/-- Modelled from the spec: `getNumberOrStringChecked`, accepting an integer
or string value (the number-match encodings). -/
def getNumberOrStringChecked (kvs : List (String × JVal)) (k : String) (required : Bool) :
    Except String (Option JVal) :=
  match jlookup kvs k with
  | none => if required then .error ("MissingField: " ++ k) else .ok none
  | some (.num n) => .ok (some (.num n))
  | some (.str s) => .ok (some (.str s))
  | some _ => .error ("BadType: " ++ k)

/-- Modelled from the spec: `getObjectOrStringChecked`, accepting a mapping
or string value (the string-match encodings). -/
def getObjectOrStringChecked (kvs : List (String × JVal)) (k : String) (required : Bool) :
    Except String (Option JVal) :=
  match jlookup kvs k with
  | none => if required then .error ("MissingField: " ++ k) else .ok none
  | some (.obj o) => .ok (some (.obj o))
  | some (.str s) => .ok (some (.str s))
  | some _ => .error ("BadType: " ++ k)

end JSONHelper

/-- The crash information record consumed read-only by the matcher. -/
structure CrashInfo where
  rawStdout : List String
  rawStderr : List String
  backtrace : List String
  crashAddress : Option Int
  crashInstruction : Option String
  testcase : Option String

/-- `OutputSymptom`: a `value` matcher over the selected output source. -/
structure OutputSymptom where
  output : StringMatch
  src : Option String

/-- `OutputSymptom.__init__`: required `value` (object-or-string), optional
`src` lowercased and restricted to `stdout`/`stderr`. -/
def OutputSymptom.init (pcre : Bool → String → String → Bool)
    (kvs : List (String × JVal)) : Except String OutputSymptom :=
  match JSONHelper.getObjectOrStringChecked kvs "value" true with
  | .error e => .error e
  | .ok none => .error "MissingField: value"
  | .ok (some jv) =>
    match StringMatch.fromJVal pcre jv with
    | .error e => .error e
    | .ok sm =>
      match JSONHelper.getStringChecked kvs "src" false with
      | .error e => .error e
      | .ok none => .ok ⟨sm, none⟩
      | .ok (some s0) =>
        let s := pyLower s0
        if s != "stderr" && s != "stdout" then
          .error ("Invalid source specified: " ++ s)
        else
          .ok ⟨sm, some s⟩

/-- `OutputSymptom.matches`: scan the selected output lines; `src` absent
searches stdout then stderr. -/
def OutputSymptom.matches (sym : OutputSymptom) (crashInfo : CrashInfo) : Bool :=
  let checkedOutput :=
    match sym.src with
    | none => crashInfo.rawStdout ++ crashInfo.rawStderr
    | some s => if s == "stdout" then crashInfo.rawStdout else crashInfo.rawStderr
  checkedOutput.any sym.output.fn

/-- `StackFrameSymptom`: one frame, `functionName` at a `frameNumber`. -/
structure StackFrameSymptom where
  functionName : StringMatch
  frameNumber : NumberMatch

/-- `StackFrameSymptom.__init__`: the source reads `functionName` with
`getNumberOrStringChecked` (so a mapping is rejected there), then builds a
`StringMatch` from it; `frameNumber` defaults to the exact number `0`. -/
def StackFrameSymptom.init (pcre : Bool → String → String → Bool)
    (kvs : List (String × JVal)) : Except String StackFrameSymptom :=
  match JSONHelper.getNumberOrStringChecked kvs "functionName" true with
  | .error e => .error e
  | .ok none => .error "MissingField: functionName"
  | .ok (some jv) =>
    match StringMatch.fromJVal pcre jv with
    | .error e => .error e
    | .ok fnm =>
      match JSONHelper.getNumberOrStringChecked kvs "frameNumber" false with
      | .error e => .error e
      | .ok none => .ok ⟨fnm, NumberMatch.exact 0⟩
      | .ok (some nv) =>
        match NumberMatch.fromJVal nv with
        | .error e => .error e
        | .ok nm => .ok ⟨fnm, nm⟩

/-- Helper for `StackFrameSymptom.matches`: scan the backtrace with its
index (the Python loop over `range(len(backtrace))`). -/
def frameScan (fnm : StringMatch) (num : NumberMatch) : Nat → List String → Bool
  | _, [] => false
  | idx, f :: rest =>
    (num.matches (some (Int.ofNat idx)) && fnm.fn f) || frameScan fnm num (idx + 1) rest

/-- `StackFrameSymptom.matches`. -/
def StackFrameSymptom.matches (sym : StackFrameSymptom) (crashInfo : CrashInfo) : Bool :=
  frameScan sym.functionName sym.frameNumber 0 crashInfo.backtrace

/-- `StackSizeSymptom`. -/
structure StackSizeSymptom where
  stackSize : NumberMatch

/-- `StackSizeSymptom.__init__`. -/
def StackSizeSymptom.init (kvs : List (String × JVal)) : Except String StackSizeSymptom :=
  match JSONHelper.getNumberOrStringChecked kvs "size" true with
  | .error e => .error e
  | .ok none => .error "MissingField: size"
  | .ok (some jv) =>
    match NumberMatch.fromJVal jv with
    | .error e => .error e
    | .ok nm => .ok ⟨nm⟩

/-- `StackSizeSymptom.matches`. -/
def StackSizeSymptom.matches (sym : StackSizeSymptom) (crashInfo : CrashInfo) : Bool :=
  sym.stackSize.matches (some (Int.ofNat crashInfo.backtrace.length))

/-- `CrashAddressSymptom`. -/
structure CrashAddressSymptom where
  address : NumberMatch

/-- `CrashAddressSymptom.__init__`. -/
def CrashAddressSymptom.init (kvs : List (String × JVal)) :
    Except String CrashAddressSymptom :=
  match JSONHelper.getNumberOrStringChecked kvs "address" true with
  | .error e => .error e
  | .ok none => .error "MissingField: address"
  | .ok (some jv) =>
    match NumberMatch.fromJVal jv with
    | .error e => .error e
    | .ok nm => .ok ⟨nm⟩

/-- `CrashAddressSymptom.matches`: an absent crash address never matches. -/
def CrashAddressSymptom.matches (sym : CrashAddressSymptom) (crashInfo : CrashInfo) : Bool :=
  sym.address.matches crashInfo.crashAddress

/-- `InstructionSymptom`: optional register names and instruction name
(at least one present). -/
structure InstructionSymptom where
  registerNames : Option (List JVal)
  instructionName : Option StringMatch

/-- `InstructionSymptom.__init__`. -/
def InstructionSymptom.init (pcre : Bool → String → String → Bool)
    (kvs : List (String × JVal)) : Except String InstructionSymptom :=
  match JSONHelper.getArrayChecked kvs "registerNames" false with
  | .error e => .error e
  | .ok regs =>
    match JSONHelper.getObjectOrStringChecked kvs "instructionName" false with
    | .error e => .error e
    | .ok (some jv) =>
      match StringMatch.fromJVal pcre jv with
      | .error e => .error e
      | .ok sm => .ok ⟨regs, some sm⟩
    | .ok none =>
      match regs with
      | none => .error "Must provide at least instruction name or register names"
      | some [] => .error "Must provide at least instruction name or register names"
      | some rs => .ok ⟨some rs, none⟩

/-- `InstructionSymptom.matches`: no instruction means no match; otherwise
every register name occurs in the instruction text and the instruction-name
matcher (when given) matches it.  Register arrays are assumed well typed
(string elements), per the accessor contract. -/
def InstructionSymptom.matches (sym : InstructionSymptom) (crashInfo : CrashInfo) : Bool :=
  match crashInfo.crashInstruction with
  | none => false
  | some instr =>
    (match sym.registerNames with
     | none => true
     | some regs => regs.all (fun r =>
        match r with
        | .str s => strContains instr s
        | _ => false)) &&
    (match sym.instructionName with
     | none => true
     | some sm => sm.fn instr)

/-- `TestcaseSymptom`. -/
structure TestcaseSymptom where
  output : StringMatch

/-- `TestcaseSymptom.__init__`. -/
def TestcaseSymptom.init (pcre : Bool → String → String → Bool)
    (kvs : List (String × JVal)) : Except String TestcaseSymptom :=
  match JSONHelper.getObjectOrStringChecked kvs "value" true with
  | .error e => .error e
  | .ok none => .error "MissingField: value"
  | .ok (some jv) =>
    match StringMatch.fromJVal pcre jv with
    | .error e => .error e
    | .ok sm => .ok ⟨sm⟩

/-- `TestcaseSymptom.matches`: split the testcase into lines and scan
(an absent testcase never matches). -/
def TestcaseSymptom.matches (sym : TestcaseSymptom) (crashInfo : CrashInfo) : Bool :=
  match crashInfo.testcase with
  | none => false
  | some t => (t.splitOn "\n").any sym.output.fn

/-- `StackFramesSymptom`: an ordered list of function-name matchers with
wildcard entries. -/
structure StackFramesSymptom where
  functionNames : List StringMatch

/-- `StackFramesSymptom.__init__`: required `functionNames` array, each
element turned into a `StringMatch`.  The source performs no emptiness
check: an empty array yields an empty matcher list. -/
def StackFramesSymptom.init (pcre : Bool → String → String → Bool)
    (kvs : List (String × JVal)) : Except String StackFramesSymptom :=
  match JSONHelper.getArrayChecked kvs "functionNames" true with
  | .error e => .error e
  | .ok none => .error "MissingField: functionNames"
  | .ok (some raw) =>
    match raw.mapM (StringMatch.fromJVal pcre) with
    | .error e => .error e
    | .ok fns => .ok ⟨fns⟩

/-- The tagged union over the seven symptom kinds. -/
inductive Symptom where
  | output (s : OutputSymptom)
  | stackFrame (s : StackFrameSymptom)
  | stackSize (s : StackSizeSymptom)
  | crashAddress (s : CrashAddressSymptom)
  | instruction (s : InstructionSymptom)
  | testcase (s : TestcaseSymptom)
  | stackFrames (s : StackFramesSymptom)

/-- Line 71 of `Symptom.py` interpolates the Python builtin `type` (the
class object), not the local variable `stype`, so the message renders the
class text instead of the offending tag. -/
def pyFormatTypeBuiltin : String := "<class \x27type\x27>"

/-- The full text of the unknown-symptom-type error as the source emits it. -/
def unknownSymptomTypeMsg : String := "Unknown symptom type: " ++ pyFormatTypeBuiltin

/-- `Symptom.fromJSONObject`: dispatch on the `type` tag.  A missing tag is
an error; an unknown tag raises the (buggy) message that names the builtin
`type` instead of the tag.  A non-string tag compares unequal to every known
tag and falls through to the same unknown-type error. -/
def Symptom.fromJSONObject (pcre : Bool → String → String → Bool)
    (kvs : List (String × JVal)) : Except String Symptom :=
  match jlookup kvs "type" with
  | none => .error "Missing symptom type in object"
  | some stype =>
    match stype with
    | .str s =>
      if s == "output" then
        match OutputSymptom.init pcre kvs with
        | .error e => .error e
        | .ok v => .ok (.output v)
      else if s == "stackFrame" then
        match StackFrameSymptom.init pcre kvs with
        | .error e => .error e
        | .ok v => .ok (.stackFrame v)
      else if s == "stackSize" then
        match StackSizeSymptom.init kvs with
        | .error e => .error e
        | .ok v => .ok (.stackSize v)
      else if s == "crashAddress" then
        match CrashAddressSymptom.init kvs with
        | .error e => .error e
        | .ok v => .ok (.crashAddress v)
      else if s == "instruction" then
        match InstructionSymptom.init pcre kvs with
        | .error e => .error e
        | .ok v => .ok (.instruction v)
      else if s == "testcase" then
        match TestcaseSymptom.init pcre kvs with
        | .error e => .error e
        | .ok v => .ok (.testcase v)
      else if s == "stackFrames" then
        match StackFramesSymptom.init pcre kvs with
        | .error e => .error e
        | .ok v => .ok (.stackFrames v)
      else .error unknownSymptomTypeMsg
    | _ => .error unknownSymptomTypeMsg

/-- True when the matcher's textual repr is one of the two wildcard tokens
`?` / `???` (the literal-repr wildcard test of the source). -/
def isWildcardSM (m : StringMatch) : Bool :=
  m.rep == "?" || m.rep == "???"

/-- `StackFramesSymptom._match(partialStack, partialFunctionNames)`.
The iterative leading non-wildcard consumption of the source's `while` loop
is rendered as one-step recursion; the wildcard branch first tries to match
the rest of the pattern against the current stack (consuming zero frames),
then consumes one frame, keeping a `???` in the pattern. -/
def StackFramesSymptom._match : List String → List StringMatch → Bool
  | _, [] => true
  | stack, p :: ps =>
    if isWildcardSM p then
      if StackFramesSymptom._match stack ps then true
      else
        match stack with
        | [] => false
        | _ :: st =>
          if p.rep == "?" then StackFramesSymptom._match st ps
          else StackFramesSymptom._match st (p :: ps)
    else
      match stack with
      | [] => false
      | s :: st => if p.fn s then StackFramesSymptom._match st ps else false
  termination_by stack pat => stack.length + pat.length
  decreasing_by all_goals simp_arith

/-- The recognizer `MATCH` exactly as the specification words it
(spec section 4.4.7): leading non-wildcards are consumed pairwise; an empty
pattern accepts; a leading `?` rejects on an empty stack and otherwise
consumes exactly one frame; a leading `???` tries the rest against the
current stack, else consumes one frame keeping the `???`. -/
def MATCHspec : List String → List StringMatch → Bool
  | _, [] => true
  | stack, p :: ps =>
    if isWildcardSM p then
      if p.rep == "?" then
        match stack with
        | [] => false
        | _ :: st => MATCHspec st ps
      else
        if MATCHspec stack ps then true
        else
          match stack with
          | [] => false
          | _ :: st => MATCHspec st (p :: ps)
    else
      match stack with
      | [] => false
      | s :: st => if p.fn s then MATCHspec st ps else false
  termination_by stack pat => stack.length + pat.length
  decreasing_by all_goals simp_arith

/-- `StackFramesSymptom.matches`. -/
def StackFramesSymptom.matches (sym : StackFramesSymptom) (crashInfo : CrashInfo) : Bool :=
  StackFramesSymptom._match crashInfo.backtrace sym.functionNames

/-- `singleWildcardMatch = StringMatch("?")`: the one wildcard `_diff`
ever introduces. -/
def singleWildcardMatch : StringMatch := StringMatch.ofString "?"

/-- The best-result update of `_diff`: keep the new candidate only when it
exists and improves on the stored depth. -/
def updateBest :
    Option (Nat × List StringMatch) → Option (Nat × List StringMatch) →
    Option (Nat × List StringMatch)
  | best, none => best
  | none, some r => some r
  | some (bd, bg), some (nd, ng) => if nd < bd then some (nd, ng) else some (bd, bg)

/-- The body of `StackFramesSymptom._diff`: the loop over
`idx ∈ [startIdx, len)` with the in-place insert / replace edits.

The working list is threaded explicitly (second component of the result),
mirroring the mutation of `newSignatureGuess`: an insertion is popped again
(`eraseIdx`), a replacement is undone by writing the original entry back, so
on every fall-through exit the working list is the entry list; an early
return hands back the currently edited list, which is the returned guess.

`rem` counts the remaining loop iterations (`len - idx`, with `len` taken
once at entry as in the Python `range`).  `fuel` tracks `maxDepth - depth`,
the number of levels the depth-bounded recursion may still descend; the
recursion is guarded by `depth < maxDepth`, under which `fuel` is positive
whenever the invariant holds, so the fuel-exhausted arm is unreachable. -/
def StackFramesSymptom._diffGo (stack : List String) :
    Nat → List StringMatch → Nat → Nat → Nat → Nat →
    Option (Nat × List StringMatch) →
    Option (Nat × List StringMatch) × List StringMatch
  | _, g, _, 0, _, _, best => (best, g)
  | fuel, g, idx, rem + 1, depth, maxDepth, best =>
    let g1 := g.insertIdx idx singleWildcardMatch
    if StackFramesSymptom._match stack g1 then (some (depth, g1), g1)
    else
      let best1 :=
        if depth < maxDepth then
          match fuel with
          | 0 => best
          | f + 1 =>
            updateBest best
              (StackFramesSymptom._diffGo stack f g1 idx (g1.length - idx)
                (depth + 1) maxDepth none).1
        else best
      let g2 := g1.eraseIdx idx
      if isWildcardSM (g2.getD idx singleWildcardMatch) then
        StackFramesSymptom._diffGo stack fuel g2 (idx + 1) rem depth maxDepth best1
      else
        let origMatch := g2.getD idx singleWildcardMatch
        let g3 := g2.set idx singleWildcardMatch
        if StackFramesSymptom._match stack g3 then (some (depth, g3), g3)
        else
          let best2 :=
            if depth < maxDepth then
              match fuel with
              | 0 => best1
              | f + 1 =>
                updateBest best1
                  (StackFramesSymptom._diffGo stack f g3 idx (g3.length - idx)
                    (depth + 1) maxDepth none).1
            else best1
          StackFramesSymptom._diffGo stack fuel (g3.set idx origMatch) (idx + 1) rem
            depth maxDepth best2
  termination_by fuel _ _ rem => (fuel, rem)
  decreasing_by
    all_goals simp_wf
    all_goals omega

/-- `StackFramesSymptom._diff(stack, signatureGuess, startIdx, depth,
maxDepth)`: run the loop on a private copy; the returned pair collapses the
Python `(None, None)` into `none`. -/
def StackFramesSymptom._diff (stack : List String) (signatureGuess : List StringMatch)
    (startIdx depth maxDepth : Nat) : Option (Nat × List StringMatch) :=
  (StackFramesSymptom._diffGo stack (maxDepth - depth) signatureGuess startIdx
    (signatureGuess.length - startIdx) depth maxDepth none).1

/-- Remove trailing wildcard tokens (`?` and `???`) from the textual guess,
as `diff` does before building the new symptom. -/
def dropTrailingWild (xs : List String) : List String :=
  (xs.reverse.dropWhile (fun s => s == "?" || s == "???")).reverse

/-- One iteration of the `for depth in range(1, 4)` loop of `diff`: run the
bounded search at `maxDepth`; on success convert the guess to its textual
reprs, trim trailing wildcards, and build the new symptom from the trimmed
strings (each string re-enters as a literal `StringMatch`, exactly what the
`StackFramesSymptom` constructor does on a list of bare strings); an empty
trimmed list yields the `(None, None)` result. -/
def diffAttempt (backtrace : List String) (names : List StringMatch) (maxDepth : Nat) :
    Option (Option Nat × Option StackFramesSymptom) :=
  match StackFramesSymptom._diff backtrace names 0 1 maxDepth with
  | none => none
  | some (bestDepth, bestGuess) =>
    let guessed := dropTrailingWild (bestGuess.map StringMatch.rep)
    if guessed.isEmpty then some (none, none)
    else some (some bestDepth, some ⟨guessed.map StringMatch.ofString⟩)

/-- `StackFramesSymptom.diff(crashInfo)`: `(0, None)` when the symptom
already matches, else iterative deepening over `maxDepth = 1, 2, 3`. -/
def StackFramesSymptom.diff (sym : StackFramesSymptom) (crashInfo : CrashInfo) :
    Option Nat × Option StackFramesSymptom :=
  if StackFramesSymptom.matches sym crashInfo then (some 0, none)
  else
    match diffAttempt crashInfo.backtrace sym.functionNames 1 with
    | some r => r
    | none =>
      match diffAttempt crashInfo.backtrace sym.functionNames 2 with
      | some r => r
      | none =>
        match diffAttempt crashInfo.backtrace sym.functionNames 3 with
        | some r => r
        | none => (none, none)

/-- `Symptom.matches`: dispatch to the kind-specific matcher. -/
def Symptom.matches : Symptom → CrashInfo → Bool
  | .output s, c => OutputSymptom.matches s c
  | .stackFrame s, c => StackFrameSymptom.matches s c
  | .stackSize s, c => StackSizeSymptom.matches s c
  | .crashAddress s, c => CrashAddressSymptom.matches s c
  | .instruction s, c => InstructionSymptom.matches s c
  | .testcase s, c => TestcaseSymptom.matches s c
  | .stackFrames s, c => StackFramesSymptom.matches s c

/-! ## Basic facts about the wildcard test and the matcher -/

theorem isWildcardSM_iff (p : StringMatch) :
    isWildcardSM p = true ↔ (p.rep = "?" ∨ p.rep = "???") := by
  simp [isWildcardSM]

theorem isWildcardSM_false_iff (p : StringMatch) :
    isWildcardSM p = false ↔ (p.rep ≠ "?" ∧ p.rep ≠ "???") := by
  simp [isWildcardSM]

theorem isWildcard_singleWildcardMatch : isWildcardSM singleWildcardMatch = true := by
  simp [isWildcardSM, singleWildcardMatch, StringMatch.ofString]

namespace StackFramesSymptom

theorem _match_nil (stack : List String) : _match stack [] = true := by
  simp [StackFramesSymptom._match]

theorem _match_nonwild_nil (p : StringMatch) (ps : List StringMatch)
    (h : isWildcardSM p = false) : _match [] (p :: ps) = false := by
  simp [StackFramesSymptom._match, h]

theorem _match_nonwild_cons (p : StringMatch) (ps : List StringMatch) (s : String)
    (st : List String) (h : isWildcardSM p = false) :
    _match (s :: st) (p :: ps) = (p.fn s && _match st ps) := by
  rw [StackFramesSymptom._match]
  simp only [h]
  cases hf : p.fn s <;> simp [hf]

theorem _match_wild_nil (p : StringMatch) (ps : List StringMatch)
    (h : isWildcardSM p = true) : _match [] (p :: ps) = _match [] ps := by
  rw [StackFramesSymptom._match]
  simp only [h]
  cases hm : _match [] ps <;> simp [hm]

theorem _match_q_cons (p : StringMatch) (ps : List StringMatch) (s : String)
    (st : List String) (h : p.rep = "?") :
    _match (s :: st) (p :: ps) = (_match (s :: st) ps || _match st ps) := by
  have hw : isWildcardSM p = true := (isWildcardSM_iff p).mpr (Or.inl h)
  rw [StackFramesSymptom._match]
  simp only [hw, h]
  cases hm : _match (s :: st) ps <;> simp [hm]

theorem _match_qqq_cons (p : StringMatch) (ps : List StringMatch) (s : String)
    (st : List String) (h : p.rep = "???") :
    _match (s :: st) (p :: ps) = (_match (s :: st) ps || _match st (p :: ps)) := by
  have hw : isWildcardSM p = true := (isWildcardSM_iff p).mpr (Or.inr h)
  have hq : (p.rep == "?") = false := by simp [h]
  rw [StackFramesSymptom._match]
  simp only [hw, hq]
  cases hm : _match (s :: st) ps <;> simp [hm]

end StackFramesSymptom

/-! ## Claim C1: the wildcard recognizer -/

/-- C1 (counterexample).  `_match` does not implement the specified
recognizer `MATCH`: against the stack `[a, c]`, the pattern `[a, ?, c]` is
accepted by the source's `_match` (the code tries a zero-frame match for a
leading `?` before consuming a frame), while the specified `MATCH` — whose
leading `?` requires a non-empty stack and consumes exactly one frame —
rejects it.  In particular the claimed "pattern `[A, ?, C]` ... does not
match `[A, C]`" fails on the code. -/
theorem claim_C1_cex :
    StackFramesSymptom._match ["a", "c"]
      [StringMatch.ofString "a", StringMatch.ofString "?", StringMatch.ofString "c"] = true
    ∧ MATCHspec ["a", "c"]
      [StringMatch.ofString "a", StringMatch.ofString "?", StringMatch.ofString "c"] = false := by
  constructor <;>
    simp [StackFramesSymptom._match, MATCHspec, isWildcardSM, StringMatch.ofString,
      strContains, subList, List.isPrefixOf]

/-- C1 (amended).  `_match(stack, pat)` realizes the recognizer with the
single change that a leading `?` first tries to match the rest of the
pattern against the current stack (consuming zero frames) and only
otherwise consumes exactly one frame: leading non-wildcard matchers are
consumed pairwise with a first-element mismatch returning false (and an
empty stack against a non-wildcard head rejecting); an empty pattern
accepts regardless of remaining stack; a leading `?` on an empty stack
reduces to the rest of the pattern, and on a non-empty stack accepts if the
rest matches the current stack or the rest matches the popped stack; a
leading `???` accepts if the rest matches the current stack, otherwise
consumes one frame and retries with the `???` kept, rejecting when the
stack is empty.  In particular pattern `[A, ?, C]` matches `[A, X, C]` for
every `X`, and also matches `[A, C]`, but not `[A, U, V, C]`. -/
theorem claim_C1_thm :
    (∀ stack, StackFramesSymptom._match stack [] = true)
    ∧ (∀ p ps, isWildcardSM p = false →
        StackFramesSymptom._match [] (p :: ps) = false)
    ∧ (∀ p ps s st, isWildcardSM p = false →
        StackFramesSymptom._match (s :: st) (p :: ps)
          = (p.fn s && StackFramesSymptom._match st ps))
    ∧ (∀ p ps, p.rep = "?" →
        StackFramesSymptom._match [] (p :: ps) = StackFramesSymptom._match [] ps
        ∧ ∀ s st, StackFramesSymptom._match (s :: st) (p :: ps)
            = (StackFramesSymptom._match (s :: st) ps
                || StackFramesSymptom._match st ps))
    ∧ (∀ p ps, p.rep = "???" →
        StackFramesSymptom._match [] (p :: ps) = StackFramesSymptom._match [] ps
        ∧ ∀ s st, StackFramesSymptom._match (s :: st) (p :: ps)
            = (StackFramesSymptom._match (s :: st) ps
                || StackFramesSymptom._match st (p :: ps)))
    ∧ (∀ x, StackFramesSymptom._match ["a", x, "c"]
        [StringMatch.ofString "a", StringMatch.ofString "?", StringMatch.ofString "c"] = true)
    ∧ StackFramesSymptom._match ["a", "c"]
        [StringMatch.ofString "a", StringMatch.ofString "?", StringMatch.ofString "c"] = true
    ∧ StackFramesSymptom._match ["a", "u", "v", "c"]
        [StringMatch.ofString "a", StringMatch.ofString "?", StringMatch.ofString "c"]
        = false := by
  refine ⟨StackFramesSymptom._match_nil,
    StackFramesSymptom._match_nonwild_nil,
    StackFramesSymptom._match_nonwild_cons,
    fun p ps h => ⟨StackFramesSymptom._match_wild_nil p ps ((isWildcardSM_iff p).mpr (Or.inl h)),
      fun s st => StackFramesSymptom._match_q_cons p ps s st h⟩,
    fun p ps h => ⟨StackFramesSymptom._match_wild_nil p ps ((isWildcardSM_iff p).mpr (Or.inr h)),
      fun s st => StackFramesSymptom._match_qqq_cons p ps s st h⟩,
    ?_, ?_, ?_⟩
  · intro x
    have hca := StackFramesSymptom._match_nonwild_cons (StringMatch.ofString "a")
      [StringMatch.ofString "?", StringMatch.ofString "c"] "a" [x, "c"] (by decide)
    have hq := StackFramesSymptom._match_q_cons (StringMatch.ofString "?")
      [StringMatch.ofString "c"] x ["c"] rfl
    have hcx := StackFramesSymptom._match_nonwild_cons (StringMatch.ofString "c") [] x ["c"]
      (by decide)
    have hcc := StackFramesSymptom._match_nonwild_cons (StringMatch.ofString "c") [] "c" []
      (by decide)
    rw [hca, hq, hcx, hcc]
    have hfa : (StringMatch.ofString "a").fn "a" = true := by decide
    have hfc : (StringMatch.ofString "c").fn "c" = true := by decide
    rw [hfa, hfc]
    simp [StackFramesSymptom._match_nil]
  · simp [StackFramesSymptom._match, isWildcardSM, StringMatch.ofString,
      strContains, subList, List.isPrefixOf]
  · simp [StackFramesSymptom._match, isWildcardSM, StringMatch.ofString,
      strContains, subList, List.isPrefixOf]

/-- C1 (witness): the hypothesis-bearing conjuncts of `claim_C1_thm`
instantiated at concrete inputs. -/
theorem claim_C1_wit :
    (StackFramesSymptom._match [] [StringMatch.ofString "z"] = false)
    ∧ (StackFramesSymptom._match ["h"] [StringMatch.ofString "z", StringMatch.ofString "k"]
        = ((StringMatch.ofString "z").fn "h"
            && StackFramesSymptom._match [] [StringMatch.ofString "k"]))
    ∧ (StackFramesSymptom._match ["h"] [StringMatch.ofString "?", StringMatch.ofString "k"]
        = (StackFramesSymptom._match ["h"] [StringMatch.ofString "k"]
            || StackFramesSymptom._match [] [StringMatch.ofString "k"]))
    ∧ (StackFramesSymptom._match ["h"] [StringMatch.ofString "???", StringMatch.ofString "k"]
        = (StackFramesSymptom._match ["h"] [StringMatch.ofString "k"]
            || StackFramesSymptom._match []
                [StringMatch.ofString "???", StringMatch.ofString "k"])) :=
  ⟨claim_C1_thm.2.1 (StringMatch.ofString "z") [] (by decide),
   claim_C1_thm.2.2.1 (StringMatch.ofString "z") [StringMatch.ofString "k"] "h" [] (by decide),
   (claim_C1_thm.2.2.2.1 (StringMatch.ofString "?") [StringMatch.ofString "k"] rfl).2 "h" [],
   (claim_C1_thm.2.2.2.2.1 (StringMatch.ofString "???") [StringMatch.ofString "k"] rfl).2 "h" []⟩

/-! ## Claims C5, C6, C7: the factory and the constructors -/

/-- C5 (code bug).  On an object whose `type` tag is the unknown string
`frobnicate`, the factory raises the unknown-symptom-type error, but —
because line 71 interpolates the Python builtin `type` instead of the
local tag variable — the message does not contain the offending tag; on an
object with no `type` key it raises the missing-type error (that part the
code honors). -/
theorem claim_C5_thm :
    Symptom.fromJSONObject (fun _ _ _ => false) [("type", JVal.str "frobnicate")]
      = .error unknownSymptomTypeMsg
    ∧ strContains unknownSymptomTypeMsg "frobnicate" = false
    ∧ Symptom.fromJSONObject (fun _ _ _ => false) [("sym", JVal.str "output")]
      = .error "Missing symptom type in object" := by
  refine ⟨rfl, by decide, rfl⟩

/-- C6 (counterexample).  Constructing a `stackFrame` symptom whose
`functionName` is a mapping `{value: "f"}` does not succeed: the source
reads the field through `getNumberOrStringChecked`, which rejects a
mapping, so the full `StringOrMatch` encoding is not accepted. -/
theorem claim_C6_cex :
    Symptom.fromJSONObject (fun _ _ _ => false)
      [("type", JVal.str "stackFrame"), ("functionName", JVal.obj [("value", JVal.str "f")])]
      = .error "BadType: functionName" := rfl

/-- C6 (amended).  A `stackFrame` symptom accepts only the bare-string form
of `functionName` (yielding the literal matcher, with `frameNumber`
defaulting to exact `0` when absent); the mapping form of `StringOrMatch`
is rejected with a type error by the number-or-string accessor. -/
theorem claim_C6_thm : ∀ pcre s,
    Symptom.fromJSONObject pcre
      [("type", JVal.str "stackFrame"), ("functionName", JVal.str s)]
      = .ok (.stackFrame ⟨StringMatch.ofString s, NumberMatch.exact 0⟩)
    ∧ ∀ kvs, Symptom.fromJSONObject pcre
      [("type", JVal.str "stackFrame"), ("functionName", JVal.obj kvs)]
      = .error "BadType: functionName" := by
  intro pcre s
  exact ⟨rfl, fun kvs => rfl⟩

/-- C7 (counterexample).  Constructing a `stackFrames` symptom from an
object whose `functionNames` is the empty array succeeds, producing an
empty matcher list: the source has no emptiness check, so no
`EmptyFrameList` error exists. -/
theorem claim_C7_cex :
    Symptom.fromJSONObject (fun _ _ _ => false)
      [("type", JVal.str "stackFrames"), ("functionNames", JVal.arr [])]
      = .ok (.stackFrames ⟨[]⟩) := rfl

/-- C7 (amended).  A missing `functionNames` key fails with the
missing-field error; an empty `functionNames` array is accepted and yields
a symptom with an empty matcher list (no `EmptyFrameList` failure). -/
theorem claim_C7_thm :
    (∀ pcre kvs, jlookup kvs "functionNames" = none →
      StackFramesSymptom.init pcre kvs = .error "MissingField: functionNames")
    ∧ ∀ pcre, StackFramesSymptom.init pcre
        [("type", JVal.str "stackFrames"), ("functionNames", JVal.arr [])] = .ok ⟨[]⟩ := by
  constructor
  · intro pcre kvs h
    simp [StackFramesSymptom.init, JSONHelper.getArrayChecked, h]
  · intro pcre
    rfl

/-- C7 (witness): `claim_C7_thm` applied to an object with no
`functionNames` key. -/
theorem claim_C7_wit :
    StackFramesSymptom.init (fun _ _ _ => false) [("type", JVal.str "stackFrames")]
      = .error "MissingField: functionNames" :=
  claim_C7_thm.1 (fun _ _ _ => false) [("type", JVal.str "stackFrames")] rfl


/-! ## Claim C8: OutputSymptom -/

/-- C8.  `OutputSymptom.matches` is true iff some line of the selected
output is matched by the value matcher — only stdout lines for
`src = "stdout"`, only stderr lines for `src = "stderr"`, and the stdout
lines followed by the stderr lines when `src` is absent; construction
lowercases a present `src` and, when the lowercased value is neither
`stdout` nor `stderr`, fails with the bad-source error (so a successfully
constructed symptom always carries one of the three `src` shapes). -/
theorem claim_C8_thm :
    (∀ sym ci, sym.src = none →
      OutputSymptom.matches sym ci = (ci.rawStdout ++ ci.rawStderr).any sym.output.fn)
    ∧ (∀ sym ci, sym.src = some "stdout" →
      OutputSymptom.matches sym ci = ci.rawStdout.any sym.output.fn)
    ∧ (∀ sym ci, sym.src = some "stderr" →
      OutputSymptom.matches sym ci = ci.rawStderr.any sym.output.fn)
    ∧ (∀ pcre kvs sym, OutputSymptom.init pcre kvs = .ok sym →
      sym.src = none ∨ sym.src = some "stdout" ∨ sym.src = some "stderr")
    ∧ (∀ pcre kvs s sym, jlookup kvs "src" = some (.str s) →
      OutputSymptom.init pcre kvs = .ok sym → sym.src = some (pyLower s))
    ∧ (∀ pcre kvs s jv sm, jlookup kvs "src" = some (.str s) →
      pyLower s ≠ "stdout" → pyLower s ≠ "stderr" →
      JSONHelper.getObjectOrStringChecked kvs "value" true = .ok (some jv) →
      StringMatch.fromJVal pcre jv = .ok sm →
      OutputSymptom.init pcre kvs = .error ("Invalid source specified: " ++ pyLower s)) := by
  refine ⟨?_, ?_, ?_, ?_, ?_, ?_⟩
  · intro sym ci h
    simp [OutputSymptom.matches, h]
  · intro sym ci h
    simp [OutputSymptom.matches, h]
  · intro sym ci h
    simp [OutputSymptom.matches, h]
  · intro pcre kvs sym h
    unfold OutputSymptom.init at h
    split at h
    · exact absurd h (by simp)
    · exact absurd h (by simp)
    · split at h
      · exact absurd h (by simp)
      · split at h
        · exact absurd h (by simp)
        · cases h
          exact Or.inl rfl
        · dsimp only at h
          rename_i s0 heq
          by_cases hb : (pyLower s0 != "stderr" && pyLower s0 != "stdout") = true
          · rw [if_pos hb] at h
            exact absurd h (by simp)
          · rw [if_neg hb] at h
            cases h
            have hcond : pyLower s0 = "stderr" ∨ pyLower s0 = "stdout" := by
              simp only [Bool.and_eq_true, bne_iff_ne, ne_eq, not_and_or, not_not] at hb
              tauto
            rcases hcond with hc | hc
            · right; right; simp [hc]
            · right; left; simp [hc]
  · intro pcre kvs s sym hsrc h
    unfold OutputSymptom.init at h
    split at h
    · exact absurd h (by simp)
    · exact absurd h (by simp)
    · split at h
      · exact absurd h (by simp)
      · split at h
        · exact absurd h (by simp)
        · rename_i heq
          simp [JSONHelper.getStringChecked, hsrc] at heq
        · rename_i s0 heq
          simp [JSONHelper.getStringChecked, hsrc] at heq
          subst heq
          dsimp only at h
          by_cases hb : (pyLower s != "stderr" && pyLower s != "stdout") = true
          · rw [if_pos hb] at h
            exact absurd h (by simp)
          · rw [if_neg hb] at h
            cases h
            rfl
  · intro pcre kvs s jv sm hsrc h1 h2 hval hsm
    unfold OutputSymptom.init
    rw [hval]
    dsimp only
    rw [hsm]
    dsimp only
    rw [JSONHelper.getStringChecked, hsrc]
    dsimp only
    have hc : (pyLower s != "stderr" && pyLower s != "stdout") = true := by
      simp [h1, h2]
    simp [hc]

/-- C8 (witness): `claim_C8_thm` applied at concrete symptoms, crash
information and JSON objects, discharging every hypothesis. -/
theorem claim_C8_wit :
    (OutputSymptom.matches ⟨StringMatch.ofString "E", none⟩ ⟨["o"], ["e"], [], none, none, none⟩
      = (["o"] ++ ["e"]).any (StringMatch.ofString "E").fn)
    ∧ (OutputSymptom.matches ⟨StringMatch.ofString "E", some "stdout"⟩
        ⟨["o"], ["e"], [], none, none, none⟩
        = (["o"] : List String).any (StringMatch.ofString "E").fn)
    ∧ (OutputSymptom.matches ⟨StringMatch.ofString "E", some "stderr"⟩
        ⟨["o"], ["e"], [], none, none, none⟩
        = (["e"] : List String).any (StringMatch.ofString "E").fn)
    ∧ ((⟨StringMatch.ofString "E", none⟩ : OutputSymptom).src = none
        ∨ (⟨StringMatch.ofString "E", none⟩ : OutputSymptom).src = some "stdout"
        ∨ (⟨StringMatch.ofString "E", none⟩ : OutputSymptom).src = some "stderr")
    ∧ ((⟨StringMatch.ofString "E", some (pyLower "STDOUT")⟩ : OutputSymptom).src
        = some (pyLower "STDOUT"))
    ∧ (OutputSymptom.init (fun _ _ _ => false)
        [("value", JVal.str "E"), ("src", JVal.str "nope")]
        = .error ("Invalid source specified: " ++ pyLower "nope")) :=
  ⟨claim_C8_thm.1 ⟨StringMatch.ofString "E", none⟩ ⟨["o"], ["e"], [], none, none, none⟩ rfl,
   claim_C8_thm.2.1 ⟨StringMatch.ofString "E", some "stdout"⟩
     ⟨["o"], ["e"], [], none, none, none⟩ rfl,
   claim_C8_thm.2.2.1 ⟨StringMatch.ofString "E", some "stderr"⟩
     ⟨["o"], ["e"], [], none, none, none⟩ rfl,
   claim_C8_thm.2.2.2.1 (fun _ _ _ => false) [("value", JVal.str "E")]
     ⟨StringMatch.ofString "E", none⟩ rfl,
   claim_C8_thm.2.2.2.2.1 (fun _ _ _ => false)
     [("value", JVal.str "E"), ("src", JVal.str "STDOUT")] "STDOUT"
     ⟨StringMatch.ofString "E", some (pyLower "STDOUT")⟩ rfl rfl,
   claim_C8_thm.2.2.2.2.2 (fun _ _ _ => false)
     [("value", JVal.str "E"), ("src", JVal.str "nope")] "nope" (JVal.str "E")
     (StringMatch.ofString "E") rfl (by decide) (by decide) rfl rfl⟩

/-! ## The diff result protocol -/

theorem diffAttempt_none {bt : List String} {names : List StringMatch} {md : Nat}
    (h : diffAttempt bt names md = none) :
    StackFramesSymptom._diff bt names 0 1 md = none := by
  unfold diffAttempt at h
  split at h
  · assumption
  · dsimp only at h
    split_ifs at h

theorem diffAttempt_inv {bt : List String} {names : List StringMatch} {md d : Nat}
    {s' : StackFramesSymptom}
    (h : diffAttempt bt names md = some (some d, some s')) :
    ∃ g, StackFramesSymptom._diff bt names 0 1 md = some (d, g)
      ∧ (dropTrailingWild (g.map StringMatch.rep)).isEmpty = false
      ∧ s'.functionNames
          = (dropTrailingWild (g.map StringMatch.rep)).map StringMatch.ofString := by
  unfold diffAttempt at h
  split at h
  · cases h
  · rename_i d0 g heq
    by_cases he : (dropTrailingWild (g.map StringMatch.rep)).isEmpty = true
    · rw [if_pos he] at h
      simp at h
    · rw [if_neg he] at h
      simp only [Option.some.injEq, Prod.mk.injEq] at h
      obtain ⟨hd, hs⟩ := h
      cases hd
      refine ⟨g, heq, by simpa using he, ?_⟩
      rw [← hs]

theorem diff_success_inv {sym : StackFramesSymptom} {ci : CrashInfo} {d : Nat}
    {s' : StackFramesSymptom}
    (h : StackFramesSymptom.diff sym ci = (some d, some s')) :
    StackFramesSymptom.matches sym ci = false ∧
    ∃ md g, 1 ≤ md ∧ md ≤ 3
      ∧ StackFramesSymptom._diff ci.backtrace sym.functionNames 0 1 md = some (d, g)
      ∧ (dropTrailingWild (g.map StringMatch.rep)).isEmpty = false
      ∧ s'.functionNames
          = (dropTrailingWild (g.map StringMatch.rep)).map StringMatch.ofString
      ∧ ∀ md', 1 ≤ md' → md' < md →
          StackFramesSymptom._diff ci.backtrace sym.functionNames 0 1 md' = none := by
  unfold StackFramesSymptom.diff at h
  by_cases hm : StackFramesSymptom.matches sym ci = true
  · rw [if_pos hm] at h
    simp at h
  · rw [if_neg hm] at h
    refine ⟨by simpa using hm, ?_⟩
    rcases ha1 : diffAttempt ci.backtrace sym.functionNames 1 with _ | r1
    · rw [ha1] at h
      dsimp only at h
      rcases ha2 : diffAttempt ci.backtrace sym.functionNames 2 with _ | r2
      · rw [ha2] at h
        dsimp only at h
        rcases ha3 : diffAttempt ci.backtrace sym.functionNames 3 with _ | r3
        · rw [ha3] at h
          simp at h
        · rw [ha3] at h
          dsimp only at h
          subst h
          obtain ⟨g, hg, hne, hfn⟩ := diffAttempt_inv ha3
          refine ⟨3, g, by omega, by omega, hg, hne, hfn, ?_⟩
          intro md' h1 h3
          interval_cases md'
          · exact diffAttempt_none ha1
          · exact diffAttempt_none ha2
      · rw [ha2] at h
        dsimp only at h
        subst h
        obtain ⟨g, hg, hne, hfn⟩ := diffAttempt_inv ha2
        refine ⟨2, g, by omega, by omega, hg, hne, hfn, ?_⟩
        intro md' h1 h2
        interval_cases md'
        exact diffAttempt_none ha1
    · rw [ha1] at h
      dsimp only at h
      subst h
      obtain ⟨g, hg, hne, hfn⟩ := diffAttempt_inv ha1
      exact ⟨1, g, le_refl 1, by omega, hg, hne, hfn, fun md' h1 h2 => by omega⟩

/-! ## Claim C4: the diff result protocol -/

/-- C4.  If the symptom already matches, `diff` returns `(0, none)`.  On a
successful search the new symptom is built from the successful pattern with
trailing wildcard tokens removed (each remaining repr re-entering as a
literal matcher), and is never empty; and when the trimmed list is empty
the attempt yields the `(none, none)` result instead of an empty
symptom. -/
theorem claim_C4_thm :
    (∀ sym ci, StackFramesSymptom.matches sym ci = true →
      StackFramesSymptom.diff sym ci = (some 0, none))
    ∧ (∀ sym ci d s', StackFramesSymptom.diff sym ci = (some d, some s') →
      s'.functionNames ≠ [] ∧
      ∃ md g, 1 ≤ md ∧ md ≤ 3
        ∧ StackFramesSymptom._diff ci.backtrace sym.functionNames 0 1 md = some (d, g)
        ∧ s'.functionNames
            = (dropTrailingWild (g.map StringMatch.rep)).map StringMatch.ofString)
    ∧ (∀ bt names md d g, StackFramesSymptom._diff bt names 0 1 md = some (d, g) →
      dropTrailingWild (g.map StringMatch.rep) = [] →
      diffAttempt bt names md = some (none, none)) := by
  refine ⟨?_, ?_, ?_⟩
  · intro sym ci h
    unfold StackFramesSymptom.diff
    rw [if_pos h]
  · intro sym ci d s' h
    obtain ⟨-, md, g, h1, h3, hg, hne, hfn, -⟩ := diff_success_inv h
    refine ⟨?_, md, g, h1, h3, hg, hfn⟩
    rw [hfn]
    intro hc
    rw [List.map_eq_nil_iff] at hc
    rw [hc] at hne
    simp at hne
  · intro bt names md d g h hnil
    unfold diffAttempt
    rw [h]
    dsimp only
    rw [hnil]
    rfl

/-- C4 (witness): `claim_C4_thm` applied at concrete symptoms and crash
information — an already-matching symptom, a successful one-edit search,
and a search whose surviving pattern is all wildcards. -/
theorem claim_C4_wit :
    (StackFramesSymptom.diff ⟨[]⟩ ⟨[], [], [], none, none, none⟩ = (some 0, none))
    ∧ ((⟨[StringMatch.ofString "a"]⟩ : StackFramesSymptom).functionNames ≠ [])
    ∧ (diffAttempt [] [StringMatch.ofString "z"] 1 = some (none, none)) := by
  refine ⟨?_, ?_, ?_⟩
  · exact claim_C4_thm.1 ⟨[]⟩ ⟨[], [], [], none, none, none⟩
      (by simp [StackFramesSymptom.matches, StackFramesSymptom._match_nil])
  · exact (claim_C4_thm.2.1 ⟨[StringMatch.ofString "a", StringMatch.ofString "z"]⟩
      ⟨[], [], ["a", "b"], none, none, none⟩ 1 ⟨[StringMatch.ofString "a"]⟩
      (by simp [StackFramesSymptom.diff, StackFramesSymptom.matches, StackFramesSymptom._diff,
        StackFramesSymptom._diffGo, StackFramesSymptom._match, diffAttempt, dropTrailingWild,
        isWildcardSM, singleWildcardMatch, StringMatch.ofString, strContains, subList,
        List.isPrefixOf, updateBest, List.insertIdx])).1
  · exact claim_C4_thm.2.2 [] [StringMatch.ofString "z"] 1 1 [singleWildcardMatch]
      (by simp [StackFramesSymptom._diff, StackFramesSymptom._diffGo, StackFramesSymptom._match,
        isWildcardSM, singleWildcardMatch, StringMatch.ofString, strContains, subList,
        List.isPrefixOf, updateBest, List.insertIdx])
      (by simp [dropTrailingWild, singleWildcardMatch, StringMatch.ofString])

/-! ## Claim C10: the search restores its working list -/

theorem set_getD_self {α : Type} : ∀ (l : List α) (n : Nat) (d : α),
    l.set n (l.getD n d) = l
  | [], _, _ => by simp
  | a :: t, 0, d => by simp
  | a :: t, n + 1, d => by
    simp only [List.getD_cons_succ, List.set_cons_succ, List.cons.injEq, true_and]
    exact set_getD_self t n d

/-- C10.  `_match` and `diff` are pure: the embedding threads the working
list of `_diff` explicitly (the second component of `_diffGo`), mirroring
the source's in-place edits on its private copy `newSignatureGuess` — an
insertion is popped again and a replacement is written back before the next
position is tried.  Consequently every call either hands its working list
back unchanged (so the caller's `signatureGuess`, and hence the symptom's
stored `functionNames`, are never altered), or early-returns, in which case
the handed-back list is exactly the returned matching guess from which
`diff` builds a freshly constructed symptom. -/
theorem claim_C10_thm : ∀ (stack : List String) (rem fuel : Nat)
    (g : List StringMatch) (idx depth maxDepth : Nat)
    (best : Option (Nat × List StringMatch)),
    ((StackFramesSymptom._diffGo stack fuel g idx rem depth maxDepth best).2 = g)
    ∨ ∃ d' gm, StackFramesSymptom._diffGo stack fuel g idx rem depth maxDepth best
          = (some (d', gm), gm)
        ∧ StackFramesSymptom._match stack gm = true := by
  intro stack rem
  induction rem with
  | zero =>
    intro fuel g idx depth maxDepth best
    left
    simp [StackFramesSymptom._diffGo]
  | succ rem ih =>
    intro fuel g idx depth maxDepth best
    rw [StackFramesSymptom._diffGo.eq_def]
    dsimp only
    by_cases h1 : StackFramesSymptom._match stack (g.insertIdx idx singleWildcardMatch) = true
    · rw [if_pos h1]
      exact Or.inr ⟨depth, g.insertIdx idx singleWildcardMatch, rfl, h1⟩
    · rw [if_neg h1, List.eraseIdx_insertIdx]
      by_cases h2 : isWildcardSM (g.getD idx singleWildcardMatch) = true
      · rw [if_pos h2]
        exact ih fuel g (idx + 1) depth maxDepth _
      · rw [if_neg h2]
        by_cases h3 : StackFramesSymptom._match stack (g.set idx singleWildcardMatch) = true
        · rw [if_pos h3]
          exact Or.inr ⟨depth, g.set idx singleWildcardMatch, rfl, h3⟩
        · rw [if_neg h3, List.set_set, set_getD_self]
          exact ih fuel g (idx + 1) depth maxDepth _

/-! ## Reachability by diff edits, and soundness of the search -/

/-- One edit as the diff search performs it: insert the `?` wildcard at a
position of the list, or replace a non-wildcard entry by `?`. -/
inductive DiffEdit : List StringMatch → List StringMatch → Prop where
  | ins (g : List StringMatch) (i : Nat) (hi : i ≤ g.length) :
      DiffEdit g (g.insertIdx i singleWildcardMatch)
  | rep (g : List StringMatch) (i : Nat) (hi : i < g.length)
      (hw : isWildcardSM (g.getD i singleWildcardMatch) = false) :
      DiffEdit g (g.set i singleWildcardMatch)

/-- `Reach k g g'`: `g'` arises from `g` by exactly `k` diff edits. -/
inductive Reach : Nat → List StringMatch → List StringMatch → Prop where
  | refl (g : List StringMatch) : Reach 0 g g
  | step {k : Nat} {g g' g'' : List StringMatch} :
      DiffEdit g g' → Reach k g' g'' → Reach (k + 1) g g''

/-- Soundness of a (possible) search result relative to the list `g` the
search started from at recursion depth `depth`: a produced guess matches
the stack, carries a depth between `depth` and `maxDepth`, and is reachable
from `g` by exactly the corresponding number of edits. -/
def SoundRes (stack : List String) (g : List StringMatch) (depth maxDepth : Nat)
    (r : Option (Nat × List StringMatch)) : Prop :=
  ∀ d g', r = some (d, g') →
    StackFramesSymptom._match stack g' = true ∧ depth ≤ d ∧ d ≤ maxDepth
      ∧ Reach (d + 1 - depth) g g'

theorem SoundRes_none {stack g depth maxDepth} :
    SoundRes stack g depth maxDepth none := by
  intro d g' heq
  cases heq

theorem updateBest_sound {stack : List String} {g : List StringMatch}
    {depth maxDepth : Nat} {b r : Option (Nat × List StringMatch)}
    (hb : SoundRes stack g depth maxDepth b) (hr : SoundRes stack g depth maxDepth r) :
    SoundRes stack g depth maxDepth (updateBest b r) := by
  rcases b with _ | ⟨bd, bg⟩ <;> rcases r with _ | ⟨nd, ng⟩
  · exact SoundRes_none
  · simpa [updateBest] using hr
  · simpa [updateBest] using hb
  · intro d g' heq
    simp only [updateBest] at heq
    split_ifs at heq
    · exact hr d g' heq
    · exact hb d g' heq

/-- Results sound for the edited list at depth `depth + 1` are sound for
the original list at depth `depth`. -/
theorem sound_lift {stack : List String} {g g1 : List StringMatch}
    {depth maxDepth : Nat} {r : Option (Nat × List StringMatch)}
    (he : DiffEdit g g1) (h : SoundRes stack g1 (depth + 1) maxDepth r) :
    SoundRes stack g depth maxDepth r := by
  intro d g' heq
  obtain ⟨hm, hd1, hd2, hre⟩ := h d g' heq
  refine ⟨hm, by omega, hd2, ?_⟩
  have harith : d + 1 - depth = (d + 1 - (depth + 1)) + 1 := by omega
  rw [harith]
  exact Reach.step he hre

theorem diffGo_sound (stack : List String) : ∀ (fuel rem : Nat)
    (g : List StringMatch) (idx depth maxDepth : Nat)
    (best : Option (Nat × List StringMatch)),
    depth ≤ maxDepth → idx + rem = g.length →
    SoundRes stack g depth maxDepth best →
    SoundRes stack g depth maxDepth
      ((StackFramesSymptom._diffGo stack fuel g idx rem depth maxDepth best).1) := by
  intro fuel
  induction fuel with
  | zero =>
    intro rem
    induction rem with
    | zero =>
      intro g idx depth maxDepth best hdm hlen hb
      simpa [StackFramesSymptom._diffGo] using hb
    | succ rem ihr =>
      intro g idx depth maxDepth best hdm hlen hb
      rw [StackFramesSymptom._diffGo.eq_def]
      dsimp only
      by_cases h1 : StackFramesSymptom._match stack (g.insertIdx idx singleWildcardMatch) = true
      · rw [if_pos h1]
        intro d g' heq
        obtain ⟨hd, hg⟩ : depth = d ∧ g.insertIdx idx singleWildcardMatch = g' := by
          simpa using heq
        subst hd; subst hg
        refine ⟨h1, le_refl _, hdm, ?_⟩
        rw [Nat.add_sub_cancel_left]
        exact Reach.step (DiffEdit.ins g idx (by omega)) (Reach.refl _)
      · rw [if_neg h1, List.eraseIdx_insertIdx]
        have hb1 : SoundRes stack g depth maxDepth
            (if depth < maxDepth then best else best) := by
          split_ifs <;> exact hb
        by_cases h2 : isWildcardSM (g.getD idx singleWildcardMatch) = true
        · rw [if_pos h2]
          exact ihr g (idx + 1) depth maxDepth _ hdm (by omega) (by split_ifs <;> exact hb)
        · rw [if_neg h2]
          by_cases h3 : StackFramesSymptom._match stack (g.set idx singleWildcardMatch) = true
          · rw [if_pos h3]
            intro d g' heq
            obtain ⟨hd, hg⟩ : depth = d ∧ g.set idx singleWildcardMatch = g' := by
              simpa using heq
            subst hd; subst hg
            refine ⟨h3, le_refl _, hdm, ?_⟩
            rw [Nat.add_sub_cancel_left]
            exact Reach.step
              (DiffEdit.rep g idx (by omega) (by simpa using h2)) (Reach.refl _)
          · rw [if_neg h3, List.set_set, set_getD_self]
            exact ihr g (idx + 1) depth maxDepth _ hdm (by omega)
              (by split_ifs <;> exact hb)
  | succ f ihf =>
    intro rem
    induction rem with
    | zero =>
      intro g idx depth maxDepth best hdm hlen hb
      simpa [StackFramesSymptom._diffGo] using hb
    | succ rem ihr =>
      intro g idx depth maxDepth best hdm hlen hb
      have hidxle : idx ≤ g.length := by omega
      have hg1len : (g.insertIdx idx singleWildcardMatch).length = g.length + 1 :=
        List.length_insertIdx idx g hidxle
      rw [StackFramesSymptom._diffGo.eq_def]
      dsimp only
      by_cases h1 : StackFramesSymptom._match stack (g.insertIdx idx singleWildcardMatch) = true
      · rw [if_pos h1]
        intro d g' heq
        obtain ⟨hd, hg⟩ : depth = d ∧ g.insertIdx idx singleWildcardMatch = g' := by
          simpa using heq
        subst hd; subst hg
        refine ⟨h1, le_refl _, hdm, ?_⟩
        rw [Nat.add_sub_cancel_left]
        exact Reach.step (DiffEdit.ins g idx hidxle) (Reach.refl _)
      · rw [if_neg h1, List.eraseIdx_insertIdx]
        have hb1 : SoundRes stack g depth maxDepth
            (if depth < maxDepth then
              updateBest best
                (StackFramesSymptom._diffGo stack f (g.insertIdx idx singleWildcardMatch)
                  idx ((g.insertIdx idx singleWildcardMatch).length - idx)
                  (depth + 1) maxDepth none).1
            else best) := by
          by_cases hd : depth < maxDepth
          · rw [if_pos hd]
            refine updateBest_sound hb ?_
            refine sound_lift (DiffEdit.ins g idx hidxle) ?_
            exact ihf _ _ idx (depth + 1) maxDepth none (by omega) (by omega) SoundRes_none
          · rw [if_neg hd]
            exact hb
        by_cases h2 : isWildcardSM (g.getD idx singleWildcardMatch) = true
        · rw [if_pos h2]
          exact ihr g (idx + 1) depth maxDepth _ hdm (by omega) hb1
        · rw [if_neg h2]
          by_cases h3 : StackFramesSymptom._match stack (g.set idx singleWildcardMatch) = true
          · rw [if_pos h3]
            intro d g' heq
            obtain ⟨hd, hg⟩ : depth = d ∧ g.set idx singleWildcardMatch = g' := by
              simpa using heq
            subst hd; subst hg
            refine ⟨h3, le_refl _, hdm, ?_⟩
            rw [Nat.add_sub_cancel_left]
            exact Reach.step
              (DiffEdit.rep g idx (by omega) (by simpa using h2)) (Reach.refl _)
          · rw [if_neg h3]
            have hb2 : SoundRes stack g depth maxDepth
                (if depth < maxDepth then
                  updateBest
                    (if depth < maxDepth then
                      updateBest best
                        (StackFramesSymptom._diffGo stack f
                          (g.insertIdx idx singleWildcardMatch) idx
                          ((g.insertIdx idx singleWildcardMatch).length - idx)
                          (depth + 1) maxDepth none).1
                    else best)
                    (StackFramesSymptom._diffGo stack f (g.set idx singleWildcardMatch)
                      idx ((g.set idx singleWildcardMatch).length - idx)
                      (depth + 1) maxDepth none).1
                else
                  (if depth < maxDepth then
                    updateBest best
                      (StackFramesSymptom._diffGo stack f
                        (g.insertIdx idx singleWildcardMatch) idx
                        ((g.insertIdx idx singleWildcardMatch).length - idx)
                        (depth + 1) maxDepth none).1
                  else best)) := by
              by_cases hd : depth < maxDepth
              · rw [if_pos hd]
                refine updateBest_sound hb1 ?_
                refine sound_lift (DiffEdit.rep g idx (by omega) (by simpa using h2)) ?_
                exact ihf _ _ idx (depth + 1) maxDepth none (by omega)
                  (by simp; omega) SoundRes_none
              · rw [if_neg hd]
                exact hb1
            rw [List.set_set, set_getD_self]
            exact ihr g (idx + 1) depth maxDepth _ hdm (by omega) hb2

theorem _diff_sound {stack : List String} {names : List StringMatch} {md d : Nat}
    {g : List StringMatch} (hmd : 1 ≤ md)
    (h : StackFramesSymptom._diff stack names 0 1 md = some (d, g)) :
    StackFramesSymptom._match stack g = true ∧ 1 ≤ d ∧ d ≤ md ∧ Reach d names g := by
  unfold StackFramesSymptom._diff at h
  have hs := diffGo_sound stack (md - 1) names.length names 0 1 md none hmd
    (by simp) SoundRes_none d g h
  obtain ⟨hm, h1, h2, hr⟩ := hs
  refine ⟨hm, h1, h2, ?_⟩
  simpa using hr

/-! ## Trailing wildcards are redundant for matching -/

theorem match_drop_last_wild {w : StringMatch} (_hw : isWildcardSM w = true) :
    ∀ (n : Nat) (stack : List String) (h : List StringMatch),
      stack.length + h.length ≤ n →
      StackFramesSymptom._match stack (h ++ [w]) = true →
      StackFramesSymptom._match stack h = true := by
  intro n
  induction n with
  | zero =>
    intro stack h hlen hm
    have hs : stack = [] := List.length_eq_zero.mp (by omega)
    have hh : h = [] := List.length_eq_zero.mp (by omega)
    subst hs; subst hh
    exact StackFramesSymptom._match_nil []
  | succ n ihn =>
    intro stack h hlen hm
    cases h with
    | nil => exact StackFramesSymptom._match_nil stack
    | cons p ps =>
      rw [List.cons_append] at hm
      by_cases hwp : isWildcardSM p = true
      · rcases (isWildcardSM_iff p).mp hwp with hq | hqqq
        · cases stack with
          | nil =>
            rw [StackFramesSymptom._match_wild_nil p _ hwp] at hm
            rw [StackFramesSymptom._match_wild_nil p ps hwp]
            exact ihn [] ps (by simp at hlen ⊢; omega) hm
          | cons s st =>
            rw [StackFramesSymptom._match_q_cons p _ s st hq] at hm
            rw [StackFramesSymptom._match_q_cons p ps s st hq]
            rcases Bool.or_eq_true_iff.mp hm with hm1 | hm2
            · have := ihn (s :: st) ps (by simp at hlen ⊢; omega) hm1
              simp [this]
            · have := ihn st ps (by simp at hlen ⊢; omega) hm2
              simp [this]
        · cases stack with
          | nil =>
            rw [StackFramesSymptom._match_wild_nil p _ hwp] at hm
            rw [StackFramesSymptom._match_wild_nil p ps hwp]
            exact ihn [] ps (by simp at hlen ⊢; omega) hm
          | cons s st =>
            rw [StackFramesSymptom._match_qqq_cons p _ s st hqqq] at hm
            rw [StackFramesSymptom._match_qqq_cons p ps s st hqqq]
            rcases Bool.or_eq_true_iff.mp hm with hm1 | hm2
            · have := ihn (s :: st) ps (by simp at hlen ⊢; omega) hm1
              simp [this]
            · rw [← List.cons_append] at hm2
              have := ihn st (p :: ps) (by simp at hlen ⊢; omega) hm2
              simp [this]
      · have hwp' : isWildcardSM p = false := by simpa using hwp
        cases stack with
        | nil =>
          rw [StackFramesSymptom._match_nonwild_nil p _ hwp'] at hm
          cases hm
        | cons s st =>
          rw [StackFramesSymptom._match_nonwild_cons p _ s st hwp'] at hm
          rw [StackFramesSymptom._match_nonwild_cons p ps s st hwp']
          rcases Bool.and_eq_true_iff.mp hm with ⟨hf, hrest⟩
          have := ihn st ps (by simp at hlen ⊢; omega) hrest
          simp [hf, this]

theorem match_drop_wild_suffix (w : List StringMatch)
    (hwild : ∀ x ∈ w, isWildcardSM x = true) :
    ∀ (stack : List String) (h : List StringMatch),
      StackFramesSymptom._match stack (h ++ w) = true →
      StackFramesSymptom._match stack h = true := by
  induction w using List.reverseRecOn with
  | nil =>
    intro stack h hm
    simpa using hm
  | append_singleton ws x ih =>
    intro stack h hm
    rw [← List.append_assoc] at hm
    have hx : isWildcardSM x = true := hwild x (by simp)
    have := match_drop_last_wild hx (stack.length + (h ++ ws).length) stack (h ++ ws)
      (le_refl _) hm
    exact ih (fun y hy => hwild y (by simp [hy])) stack h this

/-- The trailing-wildcard view of the guess list itself. -/
def dropWildSM (g : List StringMatch) : List StringMatch :=
  (g.reverse.dropWhile isWildcardSM).reverse

theorem dropWildSM_decomp (g : List StringMatch) :
    ∃ w, g = dropWildSM g ++ w ∧ ∀ x ∈ w, isWildcardSM x = true := by
  refine ⟨(g.reverse.takeWhile isWildcardSM).reverse, ?_, ?_⟩
  · unfold dropWildSM
    rw [← List.reverse_append, List.takeWhile_append_dropWhile, List.reverse_reverse]
  · intro x hx
    rw [List.mem_reverse] at hx
    exact List.mem_takeWhile_imp hx

theorem match_dropWildSM {stack : List String} {g : List StringMatch}
    (h : StackFramesSymptom._match stack g = true) :
    StackFramesSymptom._match stack (dropWildSM g) = true := by
  obtain ⟨w, hdec, hwild⟩ := dropWildSM_decomp g
  rw [hdec] at h
  exact match_drop_wild_suffix w hwild stack _ h

theorem dropTrailingWild_map_rep (g : List StringMatch) :
    dropTrailingWild (g.map StringMatch.rep) = (dropWildSM g).map StringMatch.rep := by
  unfold dropTrailingWild dropWildSM
  rw [← List.map_reverse, List.dropWhile_map, List.map_reverse]
  rfl

/-! ## Plain literal matchers round-trip through their repr -/

/-- A matcher is plain when it is exactly the literal matcher of its own
repr (the shape produced by constructing a `StringMatch` from a bare
string, as `diff` does when it rebuilds a symptom). -/
def IsPlain (m : StringMatch) : Prop := m = StringMatch.ofString m.rep

theorem isPlain_ofString (s : String) : IsPlain (StringMatch.ofString s) := rfl

theorem isPlain_singleWildcardMatch : IsPlain singleWildcardMatch := rfl

theorem reach_plain {k : Nat} {g g' : List StringMatch} (h : Reach k g g')
    (hp : ∀ m ∈ g, IsPlain m) : ∀ m ∈ g', IsPlain m := by
  induction h with
  | refl => exact hp
  | step e _ ih =>
    refine ih ?_
    cases e with
    | ins i hi =>
      intro m hm
      rcases (List.mem_insertIdx hi).mp hm with h1 | h2
      · subst h1
        exact isPlain_singleWildcardMatch
      · exact hp m h2
    | rep i hi hw =>
      intro m hm
      rcases List.mem_or_eq_of_mem_set hm with h1 | h2
      · exact hp m h1
      · subst h2
        exact isPlain_singleWildcardMatch

theorem map_ofString_rep {g : List StringMatch} (hp : ∀ m ∈ g, IsPlain m) :
    (g.map StringMatch.rep).map StringMatch.ofString = g := by
  induction g with
  | nil => rfl
  | cons m t ih =>
    simp only [List.map_cons, List.cons.injEq]
    exact ⟨(hp m (by simp)).symm, ih (fun x hx => hp x (by simp [hx]))⟩

/-! ## Claim C2: diff soundness -/

/-- Evaluate `matches` through the optional symptom of a diff result. -/
def matchesOpt : Option StackFramesSymptom → CrashInfo → Bool
  | none, _ => false
  | some s, c => StackFramesSymptom.matches s c

/-- C2 (counterexample).  Diff soundness fails for non-literal matchers:
take the symptom whose `functionNames` are the pcre matcher
`{value: "AB", matchType: "pcre"}` — under an engine for which that regex
matches every line, i.e. `fn` constantly true — followed by the literal
`zzz`, and the backtrace `[q, x]`.  The search succeeds at depth 1 with the
guess `[AB, ?]`, the trailing wildcard is trimmed, and the rebuilt symptom
re-parses the repr `AB` as a case-sensitive literal; that literal does not
occur in `q`, so the returned symptom does not match the very crash it was
generalized for. -/
theorem claim_C2_cex :
    StringMatch.fromJVal (fun _ _ _ => true)
      (.obj [("value", JVal.str "AB"), ("matchType", JVal.str "pcre")])
      = .ok ⟨"AB", fun _ => true⟩
    ∧ (StackFramesSymptom.diff ⟨[⟨"AB", fun _ => true⟩, StringMatch.ofString "zzz"]⟩
        ⟨[], [], ["q", "x"], none, none, none⟩).1 = some 1
    ∧ (StackFramesSymptom.diff ⟨[⟨"AB", fun _ => true⟩, StringMatch.ofString "zzz"]⟩
        ⟨[], [], ["q", "x"], none, none, none⟩).2.isSome = true
    ∧ matchesOpt (StackFramesSymptom.diff ⟨[⟨"AB", fun _ => true⟩, StringMatch.ofString "zzz"]⟩
        ⟨[], [], ["q", "x"], none, none, none⟩).2
        ⟨[], [], ["q", "x"], none, none, none⟩ = false := by
  refine ⟨rfl, ?_, ?_, ?_⟩ <;>
    simp [StackFramesSymptom.diff, StackFramesSymptom.matches, StackFramesSymptom._diff,
      StackFramesSymptom._diffGo, StackFramesSymptom._match, diffAttempt, dropTrailingWild,
      isWildcardSM, singleWildcardMatch, StringMatch.ofString, matchesOpt, strContains,
      subList, List.isPrefixOf, updateBest, List.insertIdx]

/-- C2 (amended).  Diff soundness holds for symptoms whose matchers are all
plain literal matchers (the bare-string `StringOrMatch` form, which is also
the only form the repr round-trip of `diff` can reproduce): if
`diff(crashInfo)` returns `(d, s')` with `s'` not none, then `s'` matches
`crashInfo` and `d ∈ {1, 2, 3}` — even though `diff` trims the trailing
wildcard tokens from the successful pattern before building `s'`. -/
theorem claim_C2_thm :
    ∀ sym ci d s', (∀ m ∈ sym.functionNames, IsPlain m) →
      StackFramesSymptom.diff sym ci = (some d, some s') →
      StackFramesSymptom.matches s' ci = true ∧ 1 ≤ d ∧ d ≤ 3 := by
  intro sym ci d s' hp h
  obtain ⟨hm, md, g, h1, h3, hg, hne, hfn, hmin⟩ := diff_success_inv h
  obtain ⟨hmatch, hd1, hd2, hreach⟩ := _diff_sound h1 hg
  have hpg : ∀ m ∈ g, IsPlain m := reach_plain hreach hp
  have hsub : ∀ m ∈ dropWildSM g, IsPlain m := by
    intro m hmem
    apply hpg
    unfold dropWildSM at hmem
    rw [List.mem_reverse] at hmem
    rw [← List.mem_reverse]
    exact (List.dropWhile_sublist isWildcardSM).subset hmem
  have hfn' : s'.functionNames = dropWildSM g := by
    rw [hfn, dropTrailingWild_map_rep, map_ofString_rep hsub]
  refine ⟨?_, hd1, le_trans hd2 h3⟩
  unfold StackFramesSymptom.matches
  rw [hfn']
  exact match_dropWildSM hmatch

/-- C2 (witness): `claim_C2_thm` applied to the plain symptom `[a, z]`
against the backtrace `[a, b]`, where `diff` succeeds with depth 1 and the
generalized symptom `[a]`. -/
theorem claim_C2_wit :
    StackFramesSymptom.matches ⟨[StringMatch.ofString "a"]⟩
      ⟨[], [], ["a", "b"], none, none, none⟩ = true
    ∧ 1 ≤ 1 ∧ 1 ≤ 3 :=
  claim_C2_thm ⟨[StringMatch.ofString "a", StringMatch.ofString "z"]⟩
    ⟨[], [], ["a", "b"], none, none, none⟩ 1 ⟨[StringMatch.ofString "a"]⟩
    (by intro m hm; simp at hm; rcases hm with rfl | rfl <;> rfl)
    (by simp [StackFramesSymptom.diff, StackFramesSymptom.matches, StackFramesSymptom._diff,
      StackFramesSymptom._diffGo, StackFramesSymptom._match, diffAttempt, dropTrailingWild,
      isWildcardSM, singleWildcardMatch, StringMatch.ofString, strContains, subList,
      List.isPrefixOf, updateBest, List.insertIdx])

/-! ## Claim C9: diff introduces only the single-frame wildcard -/

theorem filter_insertIdx {α : Type} (p : α → Bool) :
    ∀ (l : List α) (i : Nat) (a : α), i ≤ l.length → p a = false →
      (l.insertIdx i a).filter p = l.filter p
  | l, 0, a, _, hpa => by simp [hpa]
  | [], i + 1, a, hi, hpa => by simp at hi
  | x :: t, i + 1, a, hi, hpa => by
    simp only [List.insertIdx_succ_cons, List.filter_cons]
    rw [filter_insertIdx p t i a (by simpa using hi) hpa]

theorem filter_set {α : Type} (p : α → Bool) :
    ∀ (l : List α) (i : Nat) (a d : α), i < l.length →
      p (l.getD i d) = false → p a = false → (l.set i a).filter p = l.filter p
  | [], i, a, d, hi, _, _ => by simp at hi
  | x :: t, 0, a, d, _, hx, hpa => by
    simp only [List.getD_cons_zero] at hx
    simp [List.filter_cons, hx, hpa]
  | x :: t, i + 1, a, d, hi, hx, hpa => by
    simp only [List.getD_cons_succ] at hx
    simp only [List.set_cons_succ, List.filter_cons]
    rw [filter_set p t i a d (by simpa using hi) hx hpa]

/-- A diff-reachable pattern has exactly the `???` entries of the original:
edits only insert or write the `?` wildcard and never touch an entry that
is already a wildcard. -/
theorem reach_filter_qqq {k : Nat} {g g' : List StringMatch} (h : Reach k g g') :
    g'.filter (fun m => m.rep == "???") = g.filter (fun m => m.rep == "???") := by
  induction h with
  | refl => rfl
  | step e _ ih =>
    rw [ih]
    cases e with
    | ins i hi =>
      exact filter_insertIdx (fun m => m.rep == "???") _ i singleWildcardMatch hi (by decide)
    | rep i hi hw =>
      refine filter_set (fun m => m.rep == "???") _ i singleWildcardMatch
        singleWildcardMatch hi ?_ (by decide)
      have := (isWildcardSM_false_iff _).mp hw
      simp only [List.getD_eq_getElem?_getD] at this
      simp [this.2]

/-- C9.  Every edit the search performs inserts or substitutes the `?`
matcher, never `???` — a successful `diff` result is reachable from the
original `functionNames` by exactly `d` such edits; replacement skips
positions already holding a wildcard, so the `???` entries of the original
pattern are carried through unchanged (the sequence of `???` entries of
the successful guess equals that of the original), up to the
trailing-wildcard trimming applied when the new symptom is built. -/
theorem claim_C9_thm :
    ∀ sym ci d s', StackFramesSymptom.diff sym ci = (some d, some s') →
      ∃ g, Reach d sym.functionNames g
        ∧ s'.functionNames
            = (dropTrailingWild (g.map StringMatch.rep)).map StringMatch.ofString
        ∧ g.filter (fun m => m.rep == "???")
            = sym.functionNames.filter (fun m => m.rep == "???") := by
  intro sym ci d s' h
  obtain ⟨hm, md, g, h1, h3, hg, hne, hfn, hmin⟩ := diff_success_inv h
  obtain ⟨hmatch, hd1, hd2, hreach⟩ := _diff_sound h1 hg
  exact ⟨g, hreach, hfn, reach_filter_qqq hreach⟩

/-- C9 (witness): `claim_C9_thm` applied to the symptom `[a, z]` against
the backtrace `[a, b]`. -/
theorem claim_C9_wit :
    ∃ g, Reach 1 [StringMatch.ofString "a", StringMatch.ofString "z"] g
      ∧ (⟨[StringMatch.ofString "a"]⟩ : StackFramesSymptom).functionNames
          = (dropTrailingWild (g.map StringMatch.rep)).map StringMatch.ofString
      ∧ g.filter (fun m => m.rep == "???")
          = [StringMatch.ofString "a", StringMatch.ofString "z"].filter
              (fun m => m.rep == "???") :=
  claim_C9_thm ⟨[StringMatch.ofString "a", StringMatch.ofString "z"]⟩
    ⟨[], [], ["a", "b"], none, none, none⟩ 1 ⟨[StringMatch.ofString "a"]⟩
    (by simp [StackFramesSymptom.diff, StackFramesSymptom.matches, StackFramesSymptom._diff,
      StackFramesSymptom._diffGo, StackFramesSymptom._match, diffAttempt, dropTrailingWild,
      isWildcardSM, singleWildcardMatch, StringMatch.ofString, strContains, subList,
      List.isPrefixOf, updateBest, List.insertIdx])

/-! ## Canonical left-to-right form of diff edits -/

/-- `Gen k g g'`: `g'` is `g` with `k` wildcard edits applied left to
right — keep an entry, replace a non-wildcard entry by `?`, or insert a
`?`. -/
inductive Gen : Nat → List StringMatch → List StringMatch → Prop where
  | nil : Gen 0 [] []
  | keep {k : Nat} {g g' : List StringMatch} (m : StringMatch) :
      Gen k g g' → Gen k (m :: g) (m :: g')
  | repl {k : Nat} {g g' : List StringMatch} {m : StringMatch}
      (hw : isWildcardSM m = false) :
      Gen k g g' → Gen (k + 1) (m :: g) (singleWildcardMatch :: g')
  | ins {k : Nat} {g g' : List StringMatch} :
      Gen k g g' → Gen (k + 1) g (singleWildcardMatch :: g')

theorem gen_refl : ∀ g : List StringMatch, Gen 0 g g
  | [] => Gen.nil
  | m :: t => Gen.keep m (gen_refl t)

theorem gen_absorb_ins : ∀ {k : Nat} {h P : List StringMatch}, Gen k h P →
    ∀ (i : Nat) (g : List StringMatch), i ≤ g.length →
      h = g.insertIdx i singleWildcardMatch → Gen (k + 1) g P := by
  intro k h P hg
  induction hg with
  | nil =>
    intro i g hi heq
    exfalso
    have hl : (g.insertIdx i singleWildcardMatch).length = g.length + 1 :=
      List.length_insertIdx i g hi
    rw [← heq] at hl
    simp at hl
  | keep m hsub ih =>
    intro i g hi heq
    cases i with
    | zero =>
      rw [List.insertIdx_zero] at heq
      injection heq with h1 h2
      subst h1
      subst h2
      exact Gen.ins hsub
    | succ j =>
      cases g with
      | nil => simp at heq
      | cons a g' =>
        rw [List.insertIdx_succ_cons] at heq
        injection heq with h1 h2
        subst h1
        exact Gen.keep _ (ih j g' (by simpa using hi) h2)
  | repl hw hsub ih =>
    intro i g hi heq
    cases i with
    | zero =>
      rw [List.insertIdx_zero] at heq
      injection heq with h1 h2
      exfalso
      rw [h1] at hw
      exact absurd hw (by simp [isWildcard_singleWildcardMatch])
    | succ j =>
      cases g with
      | nil => simp at heq
      | cons a g' =>
        rw [List.insertIdx_succ_cons] at heq
        injection heq with h1 h2
        subst h1
        exact Gen.repl hw (ih j g' (by simpa using hi) h2)
  | ins hsub ih =>
    intro i g hi heq
    exact Gen.ins (ih i g hi heq)

theorem gen_absorb_set : ∀ {k : Nat} {h P : List StringMatch}, Gen k h P →
    ∀ (i : Nat) (g : List StringMatch), i < g.length →
      isWildcardSM (g.getD i singleWildcardMatch) = false →
      h = g.set i singleWildcardMatch → Gen (k + 1) g P := by
  intro k h P hg
  induction hg with
  | nil =>
    intro i g hi hwg heq
    exfalso
    have hl : ([] : List StringMatch).length = (g.set i singleWildcardMatch).length := by
      rw [heq]
    simp at hl
    omega
  | keep m hsub ih =>
    intro i g hi hwg heq
    cases g with
    | nil => simp at hi
    | cons a g' =>
      cases i with
      | zero =>
        rw [List.set_cons_zero] at heq
        injection heq with h1 h2
        subst h2
        have hwa : isWildcardSM a = false := by simpa using hwg
        subst h1
        exact Gen.repl hwa hsub
      | succ j =>
        rw [List.set_cons_succ] at heq
        injection heq with h1 h2
        subst h1
        have hwg' : isWildcardSM (g'.getD j singleWildcardMatch) = false := by
          simpa using hwg
        exact Gen.keep _ (ih j g' (by simpa using hi) hwg' h2)
  | repl hw hsub ih =>
    intro i g hi hwg heq
    cases g with
    | nil => simp at hi
    | cons a g' =>
      cases i with
      | zero =>
        rw [List.set_cons_zero] at heq
        injection heq with h1 h2
        exfalso
        rw [h1] at hw
        exact absurd hw (by simp [isWildcard_singleWildcardMatch])
      | succ j =>
        rw [List.set_cons_succ] at heq
        injection heq with h1 h2
        subst h1
        have hwg' : isWildcardSM (g'.getD j singleWildcardMatch) = false := by
          simpa using hwg
        exact Gen.repl hw (ih j g' (by simpa using hi) hwg' h2)
  | ins hsub ih =>
    intro i g hi hwg heq
    exact Gen.ins (ih i g hi hwg heq)

theorem reach_to_gen {k : Nat} {g P : List StringMatch} (h : Reach k g P) :
    Gen k g P := by
  induction h with
  | refl g => exact gen_refl g
  | step e _ ih =>
    cases e with
    | ins i hi => exact gen_absorb_ins ih i _ hi rfl
    | rep i hi hw => exact gen_absorb_set ih i _ hi hw rfl

/-- `GenI`: like `Gen` but inserts happen only strictly before some
surviving entry — never after the end of the original list (the only edit
positions the search's loop ever tries). -/
inductive GenI : Nat → List StringMatch → List StringMatch → Prop where
  | nil : GenI 0 [] []
  | keep {k : Nat} {g g' : List StringMatch} (m : StringMatch) :
      GenI k g g' → GenI k (m :: g) (m :: g')
  | repl {k : Nat} {g g' : List StringMatch} {m : StringMatch}
      (hw : isWildcardSM m = false) :
      GenI k g g' → GenI (k + 1) (m :: g) (singleWildcardMatch :: g')
  | ins {k : Nat} {g g' : List StringMatch} (hne : g ≠ []) :
      GenI k g g' → GenI (k + 1) g (singleWildcardMatch :: g')

theorem genI_zero : ∀ {k : Nat} {g P : List StringMatch}, GenI k g P → k = 0 → P = g := by
  intro k g P h
  induction h with
  | nil => intro _; rfl
  | keep m _ ih => intro h0; rw [ih h0]
  | repl _ _ _ => intro h0; omega
  | ins _ _ _ => intro h0; omega

theorem genI_nil_inv : ∀ {k : Nat} {P : List StringMatch}, GenI k [] P → k = 0 ∧ P = [] := by
  intro k P h
  cases h with
  | nil => exact ⟨rfl, rfl⟩
  | ins hne _ => exact absurd rfl hne

theorem gen_nil_all_wild : ∀ {k : Nat} {g P : List StringMatch}, Gen k g P → g = [] →
    ∀ x ∈ P, x = singleWildcardMatch := by
  intro k g P h
  induction h with
  | nil => intro _ x hx; cases hx
  | keep m _ _ => intro heq; cases heq
  | repl _ _ _ => intro heq; cases heq
  | ins _ ih =>
    intro heq x hx
    rcases List.mem_cons.mp hx with h1 | h2
    · exact h1
    · exact ih heq x h2

theorem gen_to_genI : ∀ {k : Nat} {g P : List StringMatch}, Gen k g P →
    ∃ k' t, k' ≤ k ∧ GenI k' g (P.take t) ∧ ∀ x ∈ P.drop t, isWildcardSM x = true := by
  intro k g P h
  induction h with
  | nil => exact ⟨0, 0, le_refl 0, GenI.nil, by simp⟩
  | keep m _ ih =>
    obtain ⟨k', t, hle, hgi, hdrop⟩ := ih
    exact ⟨k', t + 1, hle, GenI.keep m hgi, by simpa using hdrop⟩
  | repl hw _ ih =>
    obtain ⟨k', t, hle, hgi, hdrop⟩ := ih
    exact ⟨k' + 1, t + 1, by omega, GenI.repl hw hgi, by simpa using hdrop⟩
  | ins hsub ih =>
    rename_i k0 g0 P0
    by_cases hg : g0 = []
    · subst hg
      refine ⟨0, 0, by omega, GenI.nil, ?_⟩
      intro x hx
      simp only [List.drop_zero] at hx
      rcases List.mem_cons.mp hx with h1 | h2
      · rw [h1]
        exact isWildcard_singleWildcardMatch
      · rw [gen_nil_all_wild hsub rfl x h2]
        exact isWildcard_singleWildcardMatch
    · obtain ⟨k', t, hle, hgi, hdrop⟩ := ih
      exact ⟨k' + 1, t + 1, by omega, GenI.ins hg hgi, by simpa using hdrop⟩

/-- Normalization: a reachable matching pattern yields a matching pattern
reachable in canonical form with no more edits. -/
theorem reach_match_genI {stack : List String} {names P : List StringMatch} {k : Nat}
    (hr : Reach k names P) (hm : StackFramesSymptom._match stack P = true) :
    ∃ k' P', k' ≤ k ∧ GenI k' names P'
      ∧ StackFramesSymptom._match stack P' = true := by
  obtain ⟨k', t, hle, hgi, hdrop⟩ := gen_to_genI (reach_to_gen hr)
  refine ⟨k', P.take t, hle, hgi, ?_⟩
  have hsplit : P = P.take t ++ P.drop t := (List.take_append_drop t P).symm
  rw [hsplit] at hm
  exact match_drop_wild_suffix _ hdrop stack _ hm

/-! ## Completeness of the bounded search -/

theorem insertIdx_append_length {α : Type} : ∀ (pre l : List α) (x : α),
    (pre ++ l).insertIdx pre.length x = pre ++ x :: l
  | [], l, x => rfl
  | a :: pre, l, x => by
    simp only [List.cons_append, List.length_cons, List.insertIdx_succ_cons]
    rw [insertIdx_append_length pre l x]

theorem set_append_length {α : Type} : ∀ (pre : List α) (m : α) (l : List α) (x : α),
    (pre ++ m :: l).set pre.length x = pre ++ x :: l
  | [], m, l, x => rfl
  | a :: pre, m, l, x => by
    simp only [List.cons_append, List.length_cons, List.set_cons_succ]
    rw [set_append_length pre m l x]

theorem getD_append_length {α : Type} : ∀ (pre : List α) (m : α) (l : List α) (d : α),
    (pre ++ m :: l).getD pre.length d = m
  | [], m, l, d => rfl
  | a :: pre, m, l, d => by
    simp only [List.cons_append, List.length_cons, List.getD_cons_succ]
    exact getD_append_length pre m l d

theorem updateBest_ne_none_left {b r : Option (Nat × List StringMatch)} (hb : b ≠ none) :
    updateBest b r ≠ none := by
  rcases b with _ | ⟨bd, bg⟩
  · exact absurd rfl hb
  · rcases r with _ | ⟨nd, ng⟩
    · simp [updateBest]
    · simp only [updateBest]
      split_ifs <;> simp

theorem updateBest_ne_none_right {b r : Option (Nat × List StringMatch)} (hr : r ≠ none) :
    updateBest b r ≠ none := by
  rcases r with _ | ⟨nd, ng⟩
  · exact absurd rfl hr
  · rcases b with _ | ⟨bd, bg⟩
    · simp [updateBest]
    · simp only [updateBest]
      split_ifs <;> simp

/-- Once the running best is set, the loop can no longer come back empty. -/
theorem diffGo_ne_none (stack : List String) (fuel : Nat) : ∀ (rem : Nat)
    (g : List StringMatch) (idx depth maxDepth : Nat)
    (best : Option (Nat × List StringMatch)), best ≠ none →
    (StackFramesSymptom._diffGo stack fuel g idx rem depth maxDepth best).1 ≠ none := by
  intro rem
  induction rem with
  | zero =>
    intro g idx depth maxDepth best hb
    simpa [StackFramesSymptom._diffGo] using hb
  | succ rem ihr =>
    intro g idx depth maxDepth best hb
    rw [StackFramesSymptom._diffGo.eq_def]
    dsimp only
    by_cases h1 : StackFramesSymptom._match stack (g.insertIdx idx singleWildcardMatch) = true
    · rw [if_pos h1]
      simp
    · rw [if_neg h1, List.eraseIdx_insertIdx]
      rcases fuel with _ | f
      · dsimp only
        have hb1 : (if depth < maxDepth then best else best) ≠ none := by
          split_ifs <;> exact hb
        by_cases h2 : isWildcardSM (g.getD idx singleWildcardMatch) = true
        · rw [if_pos h2]
          exact ihr g (idx + 1) depth maxDepth _ hb1
        · rw [if_neg h2]
          by_cases h3 : StackFramesSymptom._match stack (g.set idx singleWildcardMatch) = true
          · rw [if_pos h3]
            simp
          · rw [if_neg h3, List.set_set, set_getD_self]
            refine ihr g (idx + 1) depth maxDepth _ ?_
            split_ifs <;> exact hb
      · dsimp only
        have hb1 : (if depth < maxDepth then
            updateBest best
              (StackFramesSymptom._diffGo stack f (g.insertIdx idx singleWildcardMatch)
                idx ((g.insertIdx idx singleWildcardMatch).length - idx)
                (depth + 1) maxDepth none).1
          else best) ≠ none := by
          split_ifs
          · exact updateBest_ne_none_left hb
          · exact hb
        by_cases h2 : isWildcardSM (g.getD idx singleWildcardMatch) = true
        · rw [if_pos h2]
          exact ihr g (idx + 1) depth maxDepth _ hb1
        · rw [if_neg h2]
          by_cases h3 : StackFramesSymptom._match stack (g.set idx singleWildcardMatch) = true
          · rw [if_pos h3]
            simp
          · rw [if_neg h3, List.set_set, set_getD_self]
            refine ihr g (idx + 1) depth maxDepth _ ?_
            split_ifs with hd
            · rw [if_pos hd] at hb1
              exact updateBest_ne_none_left hb1
            · rw [if_neg hd] at hb1
              exact hb1

/-- Completeness of the bounded search: if some pattern reachable in
canonical form by `k` edits at positions at or after the loop position
matches the stack, and the remaining depth budget admits `k` edits, the
loop cannot come back empty. -/
theorem diffGo_complete (stack : List String) : ∀ (fuel rem : Nat)
    (g pre g₂ P₂ : List StringMatch) (idx depth maxDepth k : Nat)
    (best : Option (Nat × List StringMatch)),
    g = pre ++ g₂ → pre.length = idx → idx + rem = g.length →
    depth + fuel = maxDepth →
    1 ≤ k → k ≤ fuel + 1 →
    GenI k g₂ P₂ →
    StackFramesSymptom._match stack (pre ++ P₂) = true →
    (StackFramesSymptom._diffGo stack fuel g idx rem depth maxDepth best).1 ≠ none := by
  intro fuel
  induction fuel with
  | zero =>
    intro rem
    induction rem with
    | zero =>
      intro g pre g₂ P₂ idx depth maxDepth k best hg hpre hlen hfd hk1 hkb hgi hm
      exfalso
      subst hg
      subst hpre
      have hg2 : g₂ = [] := by
        have hap := List.length_append pre g₂
        have : g₂.length = 0 := by omega
        exact List.length_eq_zero.mp this
      subst hg2
      obtain ⟨hk0, -⟩ := genI_nil_inv hgi
      omega
    | succ rem ihr =>
      intro g pre g₂ P₂ idx depth maxDepth k best hg hpre hlen hfd hk1 hkb hgi hm
      subst hg
      subst hpre
      cases g₂ with
      | nil =>
        exfalso
        simp only [List.append_nil, List.length_append, List.length_nil] at hlen
        omega
      | cons m g₂' =>
        cases hgi with
        | keep _ =>
          rename_i P₂' sub
          rw [StackFramesSymptom._diffGo.eq_def]
          dsimp only
          by_cases h1 : StackFramesSymptom._match stack
              ((pre ++ m :: g₂').insertIdx pre.length singleWildcardMatch) = true
          · rw [if_pos h1]
            simp
          · rw [if_neg h1, List.eraseIdx_insertIdx]
            have hmnext : StackFramesSymptom._match stack ((pre ++ [m]) ++ P₂') = true := by
              simpa using hm
            have hgnext : pre ++ m :: g₂' = (pre ++ [m]) ++ g₂' := by simp
            have hlnext : (pre ++ [m]).length = pre.length + 1 := by simp
            have hlennext : (pre.length + 1) + rem = (pre ++ m :: g₂').length := by
              simp only [List.length_append, List.length_cons] at hlen ⊢
              omega
            by_cases h2 : isWildcardSM
                ((pre ++ m :: g₂').getD pre.length singleWildcardMatch) = true
            · rw [if_pos h2]
              exact ihr (pre ++ m :: g₂') (pre ++ [m]) g₂' P₂' (pre.length + 1)
                depth maxDepth k _ hgnext hlnext hlennext hfd hk1 hkb sub hmnext
            · rw [if_neg h2]
              by_cases h3 : StackFramesSymptom._match stack
                  ((pre ++ m :: g₂').set pre.length singleWildcardMatch) = true
              · rw [if_pos h3]
                simp
              · rw [if_neg h3, List.set_set, set_getD_self]
                exact ihr (pre ++ m :: g₂') (pre ++ [m]) g₂' P₂' (pre.length + 1)
                  depth maxDepth k _ hgnext hlnext hlennext hfd hk1 hkb sub hmnext
        | repl hw sub =>
          rename_i k0 P₂'
          have hk0 : k0 = 0 := by omega
          subst hk0
          have hP : P₂' = g₂' := genI_zero sub rfl
          rw [hP] at hm
          rw [StackFramesSymptom._diffGo.eq_def]
          dsimp only
          by_cases h1 : StackFramesSymptom._match stack
              ((pre ++ m :: g₂').insertIdx pre.length singleWildcardMatch) = true
          · rw [if_pos h1]
            simp
          · rw [if_neg h1, List.eraseIdx_insertIdx]
            have hgd : (pre ++ m :: g₂').getD pre.length singleWildcardMatch = m :=
              getD_append_length pre m g₂' singleWildcardMatch
            have h2 : ¬(isWildcardSM
                ((pre ++ m :: g₂').getD pre.length singleWildcardMatch) = true) := by
              rw [hgd]
              simp [hw]
            rw [if_neg h2]
            have hset : (pre ++ m :: g₂').set pre.length singleWildcardMatch
                = pre ++ singleWildcardMatch :: g₂' :=
              set_append_length pre m g₂' singleWildcardMatch
            have h3 : StackFramesSymptom._match stack
                ((pre ++ m :: g₂').set pre.length singleWildcardMatch) = true := by
              rw [hset]
              exact hm
            rw [if_pos h3]
            simp
        | ins hne sub =>
          rename_i k0 P₂'
          have hk0 : k0 = 0 := by omega
          subst hk0
          have hP : P₂' = m :: g₂' := genI_zero sub rfl
          rw [hP] at hm
          rw [StackFramesSymptom._diffGo.eq_def]
          dsimp only
          have hins : (pre ++ m :: g₂').insertIdx pre.length singleWildcardMatch
              = pre ++ singleWildcardMatch :: m :: g₂' :=
            insertIdx_append_length pre (m :: g₂') singleWildcardMatch
          have h1 : StackFramesSymptom._match stack
              ((pre ++ m :: g₂').insertIdx pre.length singleWildcardMatch) = true := by
            rw [hins]
            exact hm
          rw [if_pos h1]
          simp
  | succ f ihf =>
    intro rem
    induction rem with
    | zero =>
      intro g pre g₂ P₂ idx depth maxDepth k best hg hpre hlen hfd hk1 hkb hgi hm
      exfalso
      subst hg
      subst hpre
      have hg2 : g₂ = [] := by
        have hap := List.length_append pre g₂
        have : g₂.length = 0 := by omega
        exact List.length_eq_zero.mp this
      subst hg2
      obtain ⟨hk0, -⟩ := genI_nil_inv hgi
      omega
    | succ rem ihr =>
      intro g pre g₂ P₂ idx depth maxDepth k best hg hpre hlen hfd hk1 hkb hgi hm
      subst hg
      subst hpre
      cases g₂ with
      | nil =>
        exfalso
        simp only [List.append_nil, List.length_append, List.length_nil] at hlen
        omega
      | cons m g₂' =>
        have hins : (pre ++ m :: g₂').insertIdx pre.length singleWildcardMatch
            = pre ++ singleWildcardMatch :: m :: g₂' :=
          insertIdx_append_length pre (m :: g₂') singleWildcardMatch
        have hset : (pre ++ m :: g₂').set pre.length singleWildcardMatch
            = pre ++ singleWildcardMatch :: g₂' :=
          set_append_length pre m g₂' singleWildcardMatch
        have hgd : (pre ++ m :: g₂').getD pre.length singleWildcardMatch = m :=
          getD_append_length pre m g₂' singleWildcardMatch
        cases hgi with
        | keep _ =>
          rename_i P₂' sub
          rw [StackFramesSymptom._diffGo.eq_def]
          dsimp only
          by_cases h1 : StackFramesSymptom._match stack
              ((pre ++ m :: g₂').insertIdx pre.length singleWildcardMatch) = true
          · rw [if_pos h1]
            simp
          · rw [if_neg h1, List.eraseIdx_insertIdx]
            have hmnext : StackFramesSymptom._match stack ((pre ++ [m]) ++ P₂') = true := by
              simpa using hm
            have hgnext : pre ++ m :: g₂' = (pre ++ [m]) ++ g₂' := by simp
            have hlnext : (pre ++ [m]).length = pre.length + 1 := by simp
            have hlennext : (pre.length + 1) + rem = (pre ++ m :: g₂').length := by
              simp only [List.length_append, List.length_cons] at hlen ⊢
              omega
            by_cases h2 : isWildcardSM
                ((pre ++ m :: g₂').getD pre.length singleWildcardMatch) = true
            · rw [if_pos h2]
              exact ihr (pre ++ m :: g₂') (pre ++ [m]) g₂' P₂' (pre.length + 1)
                depth maxDepth k _ hgnext hlnext hlennext hfd hk1 hkb sub hmnext
            · rw [if_neg h2]
              by_cases h3 : StackFramesSymptom._match stack
                  ((pre ++ m :: g₂').set pre.length singleWildcardMatch) = true
              · rw [if_pos h3]
                simp
              · rw [if_neg h3, List.set_set, set_getD_self]
                exact ihr (pre ++ m :: g₂') (pre ++ [m]) g₂' P₂' (pre.length + 1)
                  depth maxDepth k _ hgnext hlnext hlennext hfd hk1 hkb sub hmnext
        | repl hw sub =>
          rename_i k0 P₂'
          rcases Nat.eq_zero_or_pos k0 with hk0 | hk0
          · subst hk0
            have hP : P₂' = g₂' := genI_zero sub rfl
            rw [hP] at hm
            rw [StackFramesSymptom._diffGo.eq_def]
            dsimp only
            by_cases h1 : StackFramesSymptom._match stack
                ((pre ++ m :: g₂').insertIdx pre.length singleWildcardMatch) = true
            · rw [if_pos h1]
              simp
            · rw [if_neg h1, List.eraseIdx_insertIdx]
              have h2 : ¬(isWildcardSM
                  ((pre ++ m :: g₂').getD pre.length singleWildcardMatch) = true) := by
                rw [hgd]
                simp [hw]
              rw [if_neg h2]
              have h3 : StackFramesSymptom._match stack
                  ((pre ++ m :: g₂').set pre.length singleWildcardMatch) = true := by
                rw [hset]
                exact hm
              rw [if_pos h3]
              simp
          · have hd : depth < maxDepth := by omega
            rw [StackFramesSymptom._diffGo.eq_def]
            dsimp only
            by_cases h1 : StackFramesSymptom._match stack
                ((pre ++ m :: g₂').insertIdx pre.length singleWildcardMatch) = true
            · rw [if_pos h1]
              simp
            · rw [if_neg h1, List.eraseIdx_insertIdx]
              have h2 : ¬(isWildcardSM
                  ((pre ++ m :: g₂').getD pre.length singleWildcardMatch) = true) := by
                rw [hgd]
                simp [hw]
              rw [if_neg h2]
              by_cases h3 : StackFramesSymptom._match stack
                  ((pre ++ m :: g₂').set pre.length singleWildcardMatch) = true
              · rw [if_pos h3]
                simp
              · rw [if_neg h3]
                have hinner : (StackFramesSymptom._diffGo stack f
                    ((pre ++ m :: g₂').set pre.length singleWildcardMatch) pre.length
                    (((pre ++ m :: g₂').set pre.length singleWildcardMatch).length
                      - pre.length)
                    (depth + 1) maxDepth none).1 ≠ none := by
                  refine ihf _ _ pre (singleWildcardMatch :: g₂')
                    (singleWildcardMatch :: P₂') pre.length (depth + 1) maxDepth k0 none
                    ?_ rfl ?_ (by omega) hk0 (by omega)
                    (GenI.keep singleWildcardMatch sub) hm
                  · rw [hset]
                  · rw [hset]
                    simp
                rw [List.set_set, set_getD_self]
                refine diffGo_ne_none stack (f + 1) rem (pre ++ m :: g₂') (pre.length + 1)
                  depth maxDepth _ ?_
                rw [if_pos hd]
                exact updateBest_ne_none_right hinner
        | ins hne sub =>
          rename_i k0 P₂'
          rcases Nat.eq_zero_or_pos k0 with hk0 | hk0
          · subst hk0
            have hP : P₂' = m :: g₂' := genI_zero sub rfl
            rw [hP] at hm
            rw [StackFramesSymptom._diffGo.eq_def]
            dsimp only
            have h1 : StackFramesSymptom._match stack
                ((pre ++ m :: g₂').insertIdx pre.length singleWildcardMatch) = true := by
              rw [hins]
              exact hm
            rw [if_pos h1]
            simp
          · have hd : depth < maxDepth := by omega
            rw [StackFramesSymptom._diffGo.eq_def]
            dsimp only
            by_cases h1 : StackFramesSymptom._match stack
                ((pre ++ m :: g₂').insertIdx pre.length singleWildcardMatch) = true
            · rw [if_pos h1]
              simp
            · rw [if_neg h1, List.eraseIdx_insertIdx]
              have hinner : (StackFramesSymptom._diffGo stack f
                  ((pre ++ m :: g₂').insertIdx pre.length singleWildcardMatch) pre.length
                  (((pre ++ m :: g₂').insertIdx pre.length singleWildcardMatch).length
                    - pre.length)
                  (depth + 1) maxDepth none).1 ≠ none := by
                refine ihf _ _ pre (singleWildcardMatch :: m :: g₂')
                  (singleWildcardMatch :: P₂') pre.length (depth + 1) maxDepth k0 none
                  ?_ rfl ?_ (by omega) hk0 (by omega)
                  (GenI.keep singleWildcardMatch sub) hm
                · rw [hins]
                · rw [hins]
                  simp
              have hb1 : (if depth < maxDepth then
                  updateBest best
                    (StackFramesSymptom._diffGo stack f
                      ((pre ++ m :: g₂').insertIdx pre.length singleWildcardMatch)
                      pre.length
                      (((pre ++ m :: g₂').insertIdx pre.length singleWildcardMatch).length
                        - pre.length)
                      (depth + 1) maxDepth none).1
                else best) ≠ none := by
                rw [if_pos hd]
                exact updateBest_ne_none_right hinner
              by_cases h2 : isWildcardSM
                  ((pre ++ m :: g₂').getD pre.length singleWildcardMatch) = true
              · rw [if_pos h2]
                exact diffGo_ne_none stack (f + 1) rem (pre ++ m :: g₂') (pre.length + 1)
                  depth maxDepth _ hb1
              · rw [if_neg h2]
                by_cases h3 : StackFramesSymptom._match stack
                    ((pre ++ m :: g₂').set pre.length singleWildcardMatch) = true
                · rw [if_pos h3]
                  simp
                · rw [if_neg h3, List.set_set, set_getD_self]
                  refine diffGo_ne_none stack (f + 1) rem (pre ++ m :: g₂')
                    (pre.length + 1) depth maxDepth _ ?_
                  rw [if_pos hd]
                  exact updateBest_ne_none_left hb1

/-- Top-level completeness: a canonical `k`-edit matching pattern forces
the bounded search at `maxDepth = k` to produce a result. -/
theorem _diff_complete {stack : List String} {names P : List StringMatch} {k : Nat}
    (hk1 : 1 ≤ k) (hgi : GenI k names P)
    (hm : StackFramesSymptom._match stack P = true) :
    StackFramesSymptom._diff stack names 0 1 k ≠ none := by
  unfold StackFramesSymptom._diff
  exact diffGo_complete stack (k - 1) names.length names [] names P 0 1 k k none
    rfl rfl (by simp) (by omega) hk1 (by omega) hgi (by simpa using hm)

/-! ## Claim C3: diff minimality -/

/-- C3.  Minimality of the returned depth: when the symptom does not match
and `diff` returns depth `d`, no pattern obtainable from the original
`functionNames` by fewer than `d` wildcard edits (insertions of `?`, or
replacements of non-wildcard entries by `?`) matches the backtrace — the
iterative deepening over `maxDepth = 1, 2, 3` together with the bounded
search returns the smallest achievable edit count within the searched
depths. -/
theorem claim_C3_thm :
    ∀ sym ci d s' k P, StackFramesSymptom.matches sym ci = false →
      StackFramesSymptom.diff sym ci = (some d, some s') →
      k < d → Reach k sym.functionNames P →
      StackFramesSymptom._match ci.backtrace P = false := by
  intro sym ci d s' k P hnm hdiff hk hr
  by_contra hmP
  have hmP' : StackFramesSymptom._match ci.backtrace P = true := by
    simpa using hmP
  obtain ⟨hm0, md, g, hmd1, hmd3, hg, hne, hfn, hmin⟩ := diff_success_inv hdiff
  obtain ⟨hmatch, hd1, hd2, hreach⟩ := _diff_sound hmd1 hg
  obtain ⟨k', P', hk'le, hgi, hmP''⟩ := reach_match_genI hr hmP'
  rcases Nat.eq_zero_or_pos k' with hz | hpos
  · subst hz
    have hPP : P' = sym.functionNames := genI_zero hgi rfl
    rw [hPP] at hmP''
    unfold StackFramesSymptom.matches at hnm
    rw [hnm] at hmP''
    cases hmP''
  · have hcomp := _diff_complete hpos hgi hmP''
    have hnone := hmin k' hpos (by omega)
    exact hcomp hnone

/-- C3 (witness): `claim_C3_thm` applied to the symptom `[a, z]` against
the backtrace `[a, b]`, where `diff` returns depth 1; zero edits
(`Reach 0`, the original pattern itself) indeed fail to match. -/
theorem claim_C3_wit :
    StackFramesSymptom._match ["a", "b"]
      [StringMatch.ofString "a", StringMatch.ofString "z"] = false :=
  claim_C3_thm ⟨[StringMatch.ofString "a", StringMatch.ofString "z"]⟩
    ⟨[], [], ["a", "b"], none, none, none⟩ 1 ⟨[StringMatch.ofString "a"]⟩ 0
    [StringMatch.ofString "a", StringMatch.ofString "z"]
    (by simp [StackFramesSymptom.matches, StackFramesSymptom._match, isWildcardSM,
      StringMatch.ofString, strContains, subList, List.isPrefixOf])
    (by simp [StackFramesSymptom.diff, StackFramesSymptom.matches, StackFramesSymptom._diff,
      StackFramesSymptom._diffGo, StackFramesSymptom._match, diffAttempt, dropTrailingWild,
      isWildcardSM, singleWildcardMatch, StringMatch.ofString, strContains, subList,
      List.isPrefixOf, updateBest, List.insertIdx])
    (by omega) (Reach.refl _)
